import Mathlib

/-!
Shallow embedding of the three tool operations of
`src/noccstacksv2/tools/custom_tool.py`:

* `ClarityDocScraper._run`       (embedded as `ClarityDocScraper_run`)
* `SmartContractGenerator._run`  (embedded as `SmartContractGenerator_run`)
* `TestGenerator._run`           (embedded as `TestGenerator_run`)

Python values that flow through the descriptor dictionaries are modelled by
the inductive type `PyVal` (strings, booleans, lists, dictionaries, None).
Dictionary access `d[k]` is partial in Python (it raises `KeyError` on a
missing key and `TypeError` on a non-dictionary), so it is embedded as
`PyVal.getItem : PyVal → String → Except String PyVal`; every operation of
the source that can raise is embedded in the `Except String` monad, and an
embedded function returning `Except.error m` models the Python function
raising an exception with message `m`.  Total Python operations
(`d.get(k, default)`, truthiness, `str(...)`) are embedded as total
functions.

Network access and HTML parsing (`requests.get` + `BeautifulSoup`) are the
only parts that cannot be derived from the repository source; they are
abstracted as explicit inputs: the scraper takes a `fetch` function
(`FetchResult` carries the HTTP status and the text of the parsed
`pre`/`code` blocks and of the class-filtered `p`/`div` elements, which is
exactly what the source extracts from a page), and the test generator takes
the `Patterns` record that `TestGenerator._get_latest_test_patterns` would
have produced from the network.

String primitives used by the source (`str.lower`, `str.replace`,
`str.split()`, `x in s`, `sep.join`, `json.dumps`) are embedded by
executable functions over `String.data`; `str.lower` is modelled on the
basic-latin range (the only range the repository exercises).
-/

/-! ## String primitives -/

/-- Boolean test that a string has no newline character. -/
def noNL (s : String) : Bool := s.data.all (fun c => c != '\n')

/-- Python `s.startswith(p)`, used here to analyse generated lines. -/
def strStartsWith (s p : String) : Bool := p.data.isPrefixOf s.data

/-- Python `p in s` substring test (true for the empty `p`, as in Python). -/
def strContains (s p : String) : Bool := s.data.tails.any (fun t => p.data.isPrefixOf t)

/-- Python `str.lower`, modelled on the basic-latin range. -/
def pyLowerStr (s : String) : String := String.mk (s.data.map Char.toLower)

/-- Helper for `pyReplaceStr`: one left-to-right non-overlapping replacement
pass, as performed by Python `str.replace` (for a non-empty pattern). -/
def replaceList (pat rep : List Char) : List Char → List Char
  | [] => []
  | c :: cs =>
    if pat.isPrefixOf (c :: cs) then
      match pat with
      | [] => c :: cs
      | _ :: ps => rep ++ replaceList pat rep (cs.drop ps.length)
    else c :: replaceList pat rep cs
termination_by l => l.length
decreasing_by
  · simp only [List.length_cons, List.length_drop]
    omega
  · simp

/-- Python `s.replace(pat, rep)` for a non-empty pattern. -/
def pyReplaceStr (s pat rep : String) : String :=
  String.mk (replaceList pat.data rep.data s.data)

/-- Helper for `splitWhitespace`: the accumulator holds the current word
reversed. -/
def splitWsAux : List Char → List Char → List String
  | [], acc => if acc.isEmpty then [] else [String.mk acc.reverse]
  | c :: cs, acc =>
    if c.isWhitespace then
      if acc.isEmpty then splitWsAux cs [] else String.mk acc.reverse :: splitWsAux cs []
    else splitWsAux cs (c :: acc)

/-- Python `str.split()` with no argument: split on whitespace runs,
dropping empty pieces. -/
def splitWhitespace (s : String) : List String := splitWsAux s.data []

/-- Helper for `splitNL`: the accumulator holds the current line reversed. -/
def splitNLAux : List Char → List Char → List String
  | [], acc => [String.mk acc.reverse]
  | c :: cs, acc =>
    if c = '\n' then String.mk acc.reverse :: splitNLAux cs []
    else splitNLAux cs (c :: acc)

/-- The list of lines of a string (splitting at every newline), used to
state which lines the generators emit. -/
def splitNL (s : String) : List String := splitNLAux s.data []

/-- Python `f-string` zero-padding `f"ch{i:02d}"` for the chapter numbers. -/
def pad2 (n : Nat) : String := (if n < 10 then "0" else "") ++ toString n

/-! ## Python values -/

/-- A Python value as it appears in the descriptor dictionaries the tools
receive: strings, booleans, lists, string-keyed dictionaries, `None`. -/
inductive PyVal where
  | str : String → PyVal
  | bool : Bool → PyVal
  | list : List PyVal → PyVal
  | dict : List (String × PyVal) → PyVal
  | pyNone : PyVal
deriving Repr, BEq

/-- `isinstance(v, dict)`. -/
def PyVal.isDict : PyVal → Bool
  | .dict _ => true
  | _ => false

/-- Python `k in d` for a dictionary; `false` on non-dictionaries (the
source only uses it after an `isinstance` guard). -/
def PyVal.hasKey : PyVal → String → Bool
  | .dict kvs, k => (kvs.lookup k).isSome
  | _, _ => false

/-- Python `d.get(k, default)`. -/
def PyVal.getD (v : PyVal) (k : String) (d : PyVal) : PyVal :=
  match v with
  | .dict kvs => (kvs.lookup k).getD d
  | _ => d

/-- Python `v[k]` for a string key: `KeyError` on a missing key,
`TypeError` when `v` is not a dictionary. -/
def PyVal.getItem (v : PyVal) (k : String) : Except String PyVal :=
  match v with
  | .dict kvs =>
    match kvs.lookup k with
    | some x => .ok x
    | Option.none => .error ("KeyError: " ++ k)
  | _ => .error "TypeError: value is not subscriptable with a string key"

/-- Python truthiness of a value. -/
def pyTruthy : PyVal → Bool
  | .str s => !s.isEmpty
  | .bool b => b
  | .list xs => !xs.isEmpty
  | .dict kvs => !kvs.isEmpty
  | .pyNone => false

mutual
/-- Python `repr`, as used by `str` on containers (string escaping inside
`repr` is not modelled; the repository never renders containers). -/
def pyRepr : PyVal → String
  | .str s => "\x27" ++ s ++ "\x27"
  | .bool b => if b then "True" else "False"
  | .pyNone => "None"
  | .list xs => "[" ++ String.intercalate ", " (pyReprList xs) ++ "]"
  | .dict kvs => "\x7b" ++ String.intercalate ", " (pyReprPairs kvs) ++ "\x7d"
/-- `pyRepr` mapped over a list. -/
def pyReprList : List PyVal → List String
  | [] => []
  | v :: vs => pyRepr v :: pyReprList vs
/-- `pyRepr` rendering of the key-value pairs of a dictionary. -/
def pyReprPairs : List (String × PyVal) → List String
  | [] => []
  | (k, v) :: kvs => ("\x27" ++ k ++ "\x27: " ++ pyRepr v) :: pyReprPairs kvs
end

/-- Python `str(v)`, as applied by f-string interpolation. -/
def pyStr : PyVal → String
  | .str s => s
  | v => pyRepr v

/-- Python iteration over a value: lists yield elements, strings yield
one-character strings, dictionaries yield their keys; everything else
raises `TypeError`. -/
def pyIter : PyVal → Except String (List PyVal)
  | .list xs => .ok xs
  | .str s => .ok (s.data.map (fun c => PyVal.str (String.singleton c)))
  | .dict kvs => .ok (kvs.map (fun kv => PyVal.str kv.1))
  | _ => .error "TypeError: value is not iterable"

/-- Python `v.lower()`: an `AttributeError` on non-strings. -/
def pyLower : PyVal → Except String String
  | .str s => .ok (pyLowerStr s)
  | _ => .error "AttributeError: lower"

/-- A value that must be a `str` (e.g. the second argument of
`str.replace` or an element being joined); `TypeError` otherwise. -/
def pyAsStr : PyVal → Except String String
  | .str s => .ok s
  | _ => .error "TypeError: expected str instance"

/-- `Except`-valued `List.map`, evaluated left to right exactly like a
Python list comprehension (the first raise aborts). -/
def mapME (f : α → Except String β) : List α → Except String (List β)
  | [] => .ok []
  | a :: as => do
    let b ← f a
    let bs ← mapME f as
    pure (b :: bs)

/-- `Except`-valued `List.filter`, evaluated left to right exactly like a
Python filtering list comprehension. -/
def filterME (f : α → Except String Bool) : List α → Except String (List α)
  | [] => .ok []
  | a :: as => do
    let b ← f a
    let rest ← filterME f as
    pure (if b then a :: rest else rest)

/-- Python `sep.join(v)`: iterate `v` and require every element to be a
string. -/
def pyJoin (sep : String) (v : PyVal) : Except String String := do
  let items ← pyIter v
  let strs ← mapME pyAsStr items
  pure (String.intercalate sep strs)

/-- Truthiness of an `Optional[List[...]]` argument (`if data_vars:`):
`None` and the empty list are falsy. -/
def sectionTruthy : Option (List PyVal) → Bool
  | Option.none => false
  | some l => !l.isEmpty

/-! ## SmartContractGenerator._run (custom_tool.py lines 83-154) -/

/-- The guard of the data-variable loop (line 102), negated:
`isinstance(var, dict) and 'name' in var and 'type' in var`. -/
def isWfDataVar (var : PyVal) : Bool :=
  var.isDict && var.hasKey "name" && var.hasKey "type"

/-- One iteration of the data-variable loop (lines 101-104): a malformed
descriptor is skipped (`continue`), a well-formed one contributes the
`define-data-var` line with the `initial` field defaulting to `false`. -/
def dataVarLine (var : PyVal) : Option String :=
  if isWfDataVar var then
    some ("(define-data-var " ++ pyStr (var.getD "name" PyVal.pyNone) ++ " "
      ++ pyStr (var.getD "type" PyVal.pyNone) ++ " "
      ++ pyStr (var.getD "initial" (PyVal.str "false")) ++ ")")
  else Option.none

/-- The guard of the map loop (line 111), negated. -/
def isWfMapDef (map_def : PyVal) : Bool := map_def.isDict && map_def.hasKey "name"

/-- One iteration of the map loop (lines 110-115), with the nested
`get` defaults for the key and value types. -/
def mapLine (map_def : PyVal) : Option String :=
  if isWfMapDef map_def then
    some ("(define-map " ++ pyStr (map_def.getD "name" PyVal.pyNone) ++ " "
      ++ pyStr (map_def.getD "key_type" (map_def.getD "key" (PyVal.str "principal"))) ++ " "
      ++ pyStr (map_def.getD "value_type" (map_def.getD "value" (PyVal.str "bool"))) ++ ")")
  else Option.none

/-- The guard of the function loop (line 122), negated. -/
def isWfFunc (func : PyVal) : Bool := func.isDict && func.hasKey "name"

/-- One parameter rendering `f"({param['name']} {param['type']})"`
(lines 127/129): both subscripts can raise. -/
def paramStr (param : PyVal) : Except String String := do
  let n ← param.getItem "name"
  let t ← param.getItem "type"
  pure ("(" ++ pyStr n ++ " " ++ pyStr t ++ ")")

/-- The argument string of a function descriptor (lines 126-131): the
`parameters` format wins over `args`, neither defaults to the empty
string. -/
def funcArgsStr (func : PyVal) : Except String String :=
  if func.hasKey "parameters" then do
    let ps ← pyIter (func.getD "parameters" (PyVal.list []))
    let strs ← mapME paramStr ps
    pure (String.intercalate " " strs)
  else if func.hasKey "args" then do
    let as ← pyIter (func.getD "args" (PyVal.list []))
    let strs ← mapME paramStr as
    pure (String.intercalate " " strs)
  else pure ""

/-- One iteration of the function loop (lines 121-141).  Note the source
bug faithfully preserved on line 137: `func_type` already starts with
`define-`, and the template prepends a second `define-`, producing
`(define-define-public ...` / `(define-define-read-only ...`. -/
def funcBlock (func : PyVal) : Except String (List String) :=
  if isWfFunc func then do
    let args_str ← funcArgsStr func
    let func_type := if pyTruthy (func.getD "is_read_only" (PyVal.bool false))
      then "define-read-only" else "define-public"
    let body := pyStr (func.getD "body" (PyVal.str "(ok true)"))
    pure ["(define-" ++ func_type ++ " (" ++ pyStr (func.getD "name" PyVal.pyNone)
            ++ " " ++ args_str ++ ")",
          "    " ++ body,
          ")",
          ""]
  else pure []

/-- The guard of the error-code loop (line 147), negated. -/
def isWfErrorCode (error : PyVal) : Bool :=
  error.isDict && error.hasKey "name" && error.hasKey "code"

/-- One iteration of the error-code loop (lines 146-151): an optional
`;; message` comment line, then the `define-constant` line. -/
def errorLines (error : PyVal) : List String :=
  if isWfErrorCode error then
    (if error.hasKey "message" then [";; " ++ pyStr (error.getD "message" PyVal.pyNone)]
     else []) ++
    ["(define-constant " ++ pyStr (error.getD "name" PyVal.pyNone)
      ++ " (err u" ++ pyStr (error.getD "code" PyVal.pyNone) ++ "))"]
  else []

/-- Lines 98-105: the data-variable section (header, rendered lines,
trailing blank), emitted only when the argument is truthy. -/
def dataVarsSection (data_vars : Option (List PyVal)) : List String :=
  if sectionTruthy data_vars then
    ";; Data vars" :: ((data_vars.getD []).filterMap dataVarLine ++ [""])
  else []

/-- Lines 107-116: the map section. -/
def mapsSection (maps : Option (List PyVal)) : List String :=
  if sectionTruthy maps then
    ";; Maps" :: ((maps.getD []).filterMap mapLine ++ [""])
  else []

/-- Lines 118-141: the function section.  Unlike the other sections it has
no trailing blank line of its own (each emitted block ends with one), and
it is the only section whose loop can raise. -/
def functionsSection (functions : Option (List PyVal)) : Except String (List String) :=
  if sectionTruthy functions then do
    let blocks ← mapME funcBlock (functions.getD [])
    pure (";; Functions" :: blocks.flatten)
  else pure []

/-- Lines 143-152: the error-code section. -/
def errorCodesSection (error_codes : Option (List PyVal)) : List String :=
  if sectionTruthy error_codes then
    ";; Error codes" :: ((error_codes.getD []).flatMap errorLines ++ [""])
  else []

/-- `SmartContractGenerator._run` (lines 83-154): the fixed two-line header
plus blank, the four sections in order, joined with newlines.  The
`features` argument is accepted and never used, exactly as in the source. -/
def SmartContractGenerator_run (contract_name : String) (features : List String)
    (data_vars maps functions error_codes : Option (List PyVal)) :
    Except String String := do
  let header := [";; " ++ contract_name,
                 ";; Generated smart contract based on Clarity documentation patterns",
                 ""]
  let fnParts ← functionsSection functions
  pure (String.intercalate "\n"
    (header ++ dataVarsSection data_vars ++ mapsSection maps ++ fnParts
      ++ errorCodesSection error_codes))

/-! ## TestGenerator (custom_tool.py lines 163-357) -/

/-- The four pattern buckets that `_get_latest_test_patterns` fills from
the three documentation pages (lines 178-183); an explicit input of the
embedded `_run`, since their content comes from the network. -/
structure Patterns where
  imports : List String
  test_setup : List String
  assertions : List String
  examples : List String
deriving Repr

/-- The bucket state after every fetch failed (each `try` body is skipped),
the fixture used by the network-free claims. -/
def emptyPatterns : Patterns := ⟨[], [], [], []⟩

/-- `TestGenerator._generate_test_description` (lines 210-221).  The
`name.replace('-', ' ')` call is evaluated unconditionally (an
`AttributeError` on a non-string name), the `lower` calls only on the
branch taken. -/
def generateTestDescription (func : PyVal) : Except String String := do
  let desc := func.getD "description" (PyVal.str "")
  let n ← pyAsStr (func.getD "name" (PyVal.str ""))
  let name := pyReplaceStr n "-" " "
  let expected := func.getD "expected_behavior" (PyVal.str "")
  if pyTruthy desc then do
    let d ← pyLower desc
    pure ("should " ++ d)
  else if pyTruthy expected then do
    let e ← pyLower expected
    pure ("should " ++ e)
  else
    pure ("should execute " ++ name ++ " successfully")

/-- The per-pattern relevance test of the assertion comprehension
(lines 230-232): the key list `['expect', 'assert', func.get('name',
'').lower()]` is rebuilt for each pattern, so the `lower` call (which can
raise on a non-string name) happens once per pattern. -/
def relevantAssertion (nameVal : PyVal) (p : String) : Except String Bool := do
  let nl ← pyLower nameVal
  pure (["expect", "assert", nl].any (fun key => strContains (pyLowerStr p) key))

/-- `TestGenerator._generate_test_assertions` (lines 223-254). -/
def generateTestAssertions (func : PyVal) (patterns : Patterns) :
    Except String (List String) := do
  let _expected_result := func.getD "expected_result" (PyVal.str "(ok true)")
  let expected_behavior := func.getD "expected_behavior" (PyVal.str "")
  let assertion_patterns ←
    filterME (relevantAssertion (func.getD "name" (PyVal.str ""))) patterns.assertions
  let base_assertion :=
    match assertion_patterns with
    | p :: _ => p
    | [] => "expect(receipt.result).toBe(types.ok(true));"
  let firstLine := "      " ++ base_assertion
  let extra ← if pyTruthy expected_behavior then do
      let eb ← pyLower expected_behavior
      pure ((if strContains eb "error" then
               ["      expect(receipt.result).toHaveProperty(\x27error\x27);"] else []) ++
            (if strContains eb "return" then
               ["      expect(receipt.result).not.toBeNull();"] else []) ++
            (if strContains eb "state" then
               ["      // Verify state changes",
                "      const state = chain.getAssetsMaps();",
                "      expect(state).toBeDefined();"] else []))
    else pure []
  pure (firstLine :: extra)

/-- The fixed head of the generated test file (lines 271-286). -/
def testHeadLines (latest_import contract_name contract_description : String) :
    List String :=
  [latest_import,
   "",
   "describe(\x27" ++ contract_name ++ "\x27, () => \x7b",
   "  // " ++ contract_description,
   "  let chain: Chain;",
   "  let accounts: Map<string, Account>;",
   "",
   "  beforeEach(() => \x7b",
   "    chain = new Chain();",
   "    accounts = new Map();",
   "    accounts.set(\x27deployer\x27, new Account(\x27ST1PQHQKV0RJXZFY1DGX8MNSNYVE3VGZJSRTPGZGM\x27));",
   "    accounts.set(\x27wallet_1\x27, new Account(\x27ST1SJ3DTE5DN7X54YDH5D64R3BCB6A2AG2ZQ8YPD5\x27));",
   "  \x7d);",
   ""]

/-- One iteration of the function-test loop (lines 289-316): skip on the
guard, otherwise the description, then the assertions, then the extend
list whose eighth line joins `func.get('args', [])`. -/
def funcTestBlock (contract_name : String) (patterns : Patterns) (func : PyVal) :
    Except String (List PyVal) :=
  if isWfFunc func then do
    let test_description ← generateTestDescription func
    let assertions ← generateTestAssertions func patterns
    let argsJoined ← pyJoin ", " (func.getD "args" (PyVal.list []))
    pure ((["  describe(\x27" ++ pyStr (func.getD "name" PyVal.pyNone) ++ "\x27, () => \x7b",
            "    it(\x27" ++ test_description ++ "\x27, () => \x7b",
            "      const deployer = accounts.get(\x27deployer\x27)!;",
            "      const receipt = chain.mineBlock([",
            "        Tx.contractCall(",
            "          \x27" ++ contract_name ++ "\x27,",
            "          \x27" ++ pyStr (func.getD "name" PyVal.pyNone) ++ "\x27,",
            "          [" ++ argsJoined ++ "],",
            "          deployer.address",
            "        )",
            "      ]).receipts[0];",
            ""] ++ assertions
            ++ ["    \x7d);", "  \x7d);", ""]).map PyVal.str)
  else pure []

/-- The `next(...)` expression of lines 325-329.  The
`scenario['description'].lower().split()` expression lives inside the
generator passed to `next`, so it is evaluated (and can raise) only when
the `examples` bucket is non-empty. -/
def scenarioExample (patterns : Patterns) (scenario : PyVal) :
    Except String (Option String) :=
  match patterns.examples with
  | [] => pure Option.none
  | _ :: _ => do
    let dl ← pyLower (scenario.getD "description" PyVal.pyNone)
    let keys := splitWhitespace dl
    pure (patterns.examples.find?
      (fun pattern => keys.any (fun key => strContains (pyLowerStr pattern) key)))

/-- Lines 336-345: the middle line of a scenario block.  When a truthy
example pattern was found, the contract/function name tokens are
substituted into it (the `function` field must then be a string, as the
second argument of `str.replace`); otherwise the `test_code` field, or its
default comment line, is appended as a raw Python value. -/
def scenarioMid (contract_name : String) (scenario : PyVal) :
    Option String → Except String (List PyVal)
  | some p =>
    if p ≠ "" then do
      let fnName ← pyAsStr (scenario.getD "function" (PyVal.str "test-function"))
      pure [PyVal.str ("      "
        ++ pyReplaceStr (pyReplaceStr p "contract-name" contract_name)
             "function-name" fnName)]
    else pure [scenario.getD "test_code" (PyVal.str "      // Add test implementation")]
  | Option.none =>
    pure [scenario.getD "test_code" (PyVal.str "      // Add test implementation")]

/-- One iteration of the scenario loop (lines 320-351): skip on the guard
of line 321; when a truthy example pattern was found the contract/function
name tokens are substituted into it, otherwise `scenario.get('test_code',
...)` is appended as a raw Python value (a non-string there only fails
later, in the final join). -/
def scenarioBlock (contract_name : String) (patterns : Patterns) (scenario : PyVal) :
    Except String (List PyVal) :=
  if scenario.isDict && scenario.hasKey "description" then do
    let example_pattern ← scenarioExample patterns scenario
    let firstTwo : List PyVal :=
      [PyVal.str ("  describe(\x27Scenario: "
          ++ pyStr (scenario.getD "description" PyVal.pyNone) ++ "\x27, () => \x7b"),
       PyVal.str "    it(\x27should handle the scenario correctly\x27, () => \x7b"]
    let mid ← scenarioMid contract_name scenario example_pattern
    pure (firstTwo ++ mid ++ [PyVal.str "    \x7d);", PyVal.str "  \x7d);", PyVal.str ""])
  else pure []

/-- Lines 319-320: the scenario loop runs only when `test_scenarios` is
truthy; otherwise no scenario block is produced. -/
def scenarioSection (contract_name : String) (patterns : Patterns)
    (test_scenarios : Option (List PyVal)) : Except String (List (List PyVal)) :=
  if sectionTruthy test_scenarios then
    mapME (scenarioBlock contract_name patterns) (test_scenarios.getD [])
  else pure []

/-- `TestGenerator._run` (lines 256-357), with the scraped `patterns` as an
explicit argument standing for the `self._get_latest_test_patterns()` call
of line 264.  `test_parts` is a list of Python values because line 345 can
append a non-string `test_code` value, which only raises in the final
`join(test_parts)` of line 357. -/
def TestGenerator_run (contract_name contract_description : String)
    (functions : List PyVal) (test_scenarios : Option (List PyVal))
    (patterns : Patterns) : Except String String := do
  let latest_import :=
    (patterns.imports.find?
      (fun imp => strContains imp "@stacks/blockchain-api-client")).getD
      ("import \x7b Chain, Clarinet, Tx, types \x7d from \x27@stacks/blockchain-api-client\x27;\n"
        ++ "import \x7b describe, expect, it, beforeEach \x7d from \x27vitest\x27;")
  let head := (testHeadLines latest_import contract_name contract_description).map PyVal.str
  let funcBlocks ← mapME (funcTestBlock contract_name patterns) functions
  let scenBlocks ← scenarioSection contract_name patterns test_scenarios
  pyJoin "\n" (PyVal.list
    (head ++ funcBlocks.flatten ++ scenBlocks.flatten ++ [PyVal.str "\x7d);"]))

/-! ## ClarityDocScraper._run (custom_tool.py lines 21-64) -/

/-- The outcome of one `requests.get` as the scraper observes it: `fail`
models any raised exception (caught by the per-URL `except: continue`),
`okPage` carries the HTTP status together with the stripped text of the
`pre`/`code` blocks and of the `p`/`div` elements with the `content` /
`explanation` classes, which is all the source reads from a page. -/
inductive FetchResult where
  | fail : FetchResult
  | okPage : Nat → List String → List String → FetchResult

/-- One `{"type": ..., "content": ...}` record appended by the scraper. -/
structure ScrapeRecord where
  rtype : String
  content : String
deriving Repr, DecidableEq

/-- The records one URL contributes (lines 36-58): nothing on failure or a
non-200 status; otherwise the keyword-filtered code blocks as `example`
records followed by the topic-filtered explanations as `explanation`
records. -/
def scrapeRecordsOf (topic : String) : FetchResult → List ScrapeRecord
  | .fail => []
  | .okPage status codeBlocks explanations =>
    if status = 200 then
      (codeBlocks.filterMap (fun code =>
        if ["define-", "contract-call?", pyLowerStr topic].any
             (fun keyword => strContains code keyword)
        then some ⟨"example", code⟩ else Option.none)) ++
      (explanations.filterMap (fun text =>
        if strContains (pyLowerStr text) (pyLowerStr topic)
        then some ⟨"explanation", text⟩ else Option.none))
    else []

/-- One lowercase hexadecimal digit. -/
def hexDigit (n : Nat) : Char :=
  if n < 10 then Char.ofNat (48 + n) else Char.ofNat (87 + n)

/-- A four-digit lowercase hexadecimal rendering, as in `\uXXXX`. -/
def hex4 (n : Nat) : String :=
  String.mk [hexDigit (n / 4096 % 16), hexDigit (n / 256 % 16),
             hexDigit (n / 16 % 16), hexDigit (n % 16)]

/-- One character of `json.dumps` output with the default
`ensure_ascii=True` escaping (non-basic-multilingual-plane characters
become a UTF-16 surrogate pair). -/
def jsonEscapeChar (c : Char) : String :=
  if c = '"' then "\\\""
  else if c = '\\' then "\\\\"
  else if c = '\n' then "\\n"
  else if c = '\t' then "\\t"
  else if c = '\r' then "\\r"
  else if c = Char.ofNat 8 then "\\b"
  else if c = Char.ofNat 12 then "\\f"
  else if c.toNat < 32 || (c.toNat ≥ 128 && c.toNat < 65536) then
    "\\u" ++ hex4 c.toNat
  else if c.toNat ≥ 65536 then
    "\\u" ++ hex4 (55296 + (c.toNat - 65536) / 1024)
      ++ "\\u" ++ hex4 (56320 + (c.toNat - 65536) % 1024)
  else String.singleton c

/-- A JSON string literal as `json.dumps` renders it. -/
def jsonStringLit (s : String) : String :=
  "\"" ++ String.join (s.data.map jsonEscapeChar) ++ "\""

/-- One record as rendered inside `json.dumps(results, indent=2)`: keys in
insertion order (`type`, then `content`). -/
def recordJson (r : ScrapeRecord) : String :=
  "  \x7b\n    \"type\": " ++ jsonStringLit r.rtype
    ++ ",\n    \"content\": " ++ jsonStringLit r.content ++ "\n  \x7d"

/-- `json.dumps(results, indent=2)` for the scraper result list: `[]` for
the empty list, otherwise the records joined by `,\n` inside brackets. -/
def jsonDumpsRecords : List ScrapeRecord → String
  | [] => "[]"
  | rs => "[\n" ++ String.intercalate ",\n" (rs.map recordJson) ++ "\n]"

/-- `ClarityDocScraper._run` (lines 21-64) over an explicit `fetch`
function.  The twelve templated book URLs (lines 24-27) then the two static
URLs (lines 28-31) are visited in order; each contributes its records, a
failed fetch is skipped by the per-URL `except`.  Every step after the
loop is total, so the outer `except` wrapper of line 63 is unreachable and
the embedding returns the `json.dumps` of the collected records directly. -/
def ClarityDocScraper_run (topic : String) (fetch : String → FetchResult) : String :=
  let urls :=
    ((List.range 12).map (fun i =>
      "https://book.clarity-lang.org/ch" ++ pad2 (i + 1) ++ "-"
        ++ pyReplaceStr (pyLowerStr topic) " " "-" ++ ".html"))
    ++ ["https://docs.stacks.co/docs/clarity/",
        "https://docs.stacks.co/docs/write-smart-contracts/"]
  let results := (urls.map (fun url => scrapeRecordsOf topic (fetch url))).flatten
  jsonDumpsRecords results

/-- The hypothesis of the network-failure claim: the fetch of a URL either
raised or came back with a status other than 200. -/
def fetchFails : FetchResult → Bool
  | .fail => true
  | .okPage status _ _ => status != 200

/-! ## Well-formedness predicates and rendered-line descriptions

The predicates below are decidable side conditions used in theorem
statements; the `...Of` functions describe single rendered lines so that
theorems can say which line of the output belongs to which descriptor. -/

/-- Is the value a Python string? -/
def isStrVal : PyVal → Bool
  | .str _ => true
  | _ => false

mutual
/-- Every string literal reachable inside the value (including dictionary
keys) is newline-free; needed when a theorem identifies output lines. -/
def PyVal.clean : PyVal → Bool
  | .str s => noNL s
  | .bool _ => true
  | .pyNone => true
  | .list xs => cleanList xs
  | .dict kvs => cleanPairs kvs
/-- `PyVal.clean` over a list of values. -/
def cleanList : List PyVal → Bool
  | [] => true
  | v :: vs => v.clean && cleanList vs
/-- `PyVal.clean` over dictionary entries. -/
def cleanPairs : List (String × PyVal) → Bool
  | [] => true
  | (k, v) :: kvs => noNL k && v.clean && cleanPairs kvs
end

/-- A parameter/argument entry that the contract generator can render
without raising: a dictionary with both subscripted keys. -/
def paramEntryOk (p : PyVal) : Bool :=
  p.isDict && p.hasKey "name" && p.hasKey "type"

/-- A `parameters`/`args` field value every entry of which renders without
raising. -/
def paramsFieldOk : PyVal → Bool
  | .list ps => ps.all paramEntryOk
  | _ => false

/-- No-raise condition for one function descriptor of the contract
generator: skipped descriptors are unconstrained, rendered ones must have
renderable parameter lists when they carry one. -/
def smartFuncOk (f : PyVal) : Bool :=
  if isWfFunc f then
    if f.hasKey "parameters" then paramsFieldOk (f.getD "parameters" PyVal.pyNone)
    else if f.hasKey "args" then paramsFieldOk (f.getD "args" PyVal.pyNone)
    else true
  else true

/-- Is the optional field either absent or a string? -/
def optFieldStr (v : PyVal) (k : String) : Bool :=
  if v.hasKey k then isStrVal (v.getD k PyVal.pyNone) else true

/-- No-raise condition for one function descriptor of the test generator:
a string name, string `description`/`expected_behavior` when present, and
an `args` list of strings when present. -/
def testFuncOk (f : PyVal) : Bool :=
  if isWfFunc f then
    isStrVal (f.getD "name" PyVal.pyNone)
      && optFieldStr f "description" && optFieldStr f "expected_behavior"
      && (if f.hasKey "args" then
            (match f.getD "args" PyVal.pyNone with
             | .list xs => xs.all isStrVal
             | _ => false)
          else true)
  else true

/-- No-raise condition for one scenario descriptor of the test generator. -/
def testScenarioOk (s : PyVal) : Bool :=
  if s.isDict && s.hasKey "description" then
    isStrVal (s.getD "description" PyVal.pyNone)
      && optFieldStr s "function" && optFieldStr s "test_code"
  else true

/-- Strengthened condition used when a theorem identifies the lines of the
contract generator output: the descriptor is rendered (a dictionary with a
name), newline-free throughout, and has renderable parameters. -/
def strictSmartFuncOk (f : PyVal) : Bool := isWfFunc f && f.clean && smartFuncOk f

/-- Strengthened condition used when a theorem identifies the lines of the
test generator output: every used field is a newline-free string. -/
def strictTestFuncOk (f : PyVal) : Bool :=
  match f with
  | .dict kvs =>
    (match kvs.lookup "name" with
     | some (.str n) => noNL n
     | _ => false) &&
    (match kvs.lookup "description" with
     | some (.str d) => noNL d
     | Option.none => true
     | some _ => false) &&
    (match kvs.lookup "expected_behavior" with
     | some (.str e) => noNL e
     | Option.none => true
     | some _ => false) &&
    (match kvs.lookup "args" with
     | some (.list xs) => xs.all (fun a =>
        match a with
        | .str s => noNL s
        | _ => false)
     | Option.none => true
     | some _ => false)
  | _ => false

/-- Strengthened condition for scenario descriptors: a newline-free string
description, and a `test_code` (when present) that is a newline-free
string not shaped like a `describe` line, so that scenario blocks can be
recognised in the output. -/
def strictScenarioOk (s : PyVal) : Bool :=
  match s with
  | .dict kvs =>
    (match kvs.lookup "description" with
     | some (.str d) => noNL d
     | _ => false) &&
    (match kvs.lookup "test_code" with
     | some (.str t) => noNL t && !strStartsWith t "  describe("
     | Option.none => true
     | some _ => false)
  | _ => false

/-- The list payload of a `PyVal.list`, empty otherwise. -/
def pyListOf : PyVal → List PyVal
  | .list xs => xs
  | _ => []

/-- The value `paramStr` returns when it does not raise. -/
def paramStrPure (p : PyVal) : String :=
  "(" ++ pyStr (p.getD "name" PyVal.pyNone) ++ " " ++ pyStr (p.getD "type" PyVal.pyNone) ++ ")"

/-- The value `funcArgsStr` returns when it does not raise. -/
def argsStrOf (f : PyVal) : String :=
  if f.hasKey "parameters" then
    String.intercalate " " ((pyListOf (f.getD "parameters" PyVal.pyNone)).map paramStrPure)
  else if f.hasKey "args" then
    String.intercalate " " ((pyListOf (f.getD "args" PyVal.pyNone)).map paramStrPure)
  else ""

/-- The `func_type` string chosen on line 133. -/
def funcTypeOf (f : PyVal) : String :=
  if pyTruthy (f.getD "is_read_only" (PyVal.bool false)) then "define-read-only"
  else "define-public"

/-- The first line of a rendered function block (line 137), with the
doubled `define-` of the source. -/
def funcHeaderOf (f : PyVal) : String :=
  "(define-" ++ funcTypeOf f ++ " (" ++ pyStr (f.getD "name" PyVal.pyNone)
    ++ " " ++ argsStrOf f ++ ")"

/-- The rendered body of a function descriptor (line 134). -/
def funcBodyOf (f : PyVal) : String := pyStr (f.getD "body" (PyVal.str "(ok true)"))

/-- The four lines a rendered function descriptor contributes. -/
def funcBlockLines (f : PyVal) : List String :=
  [funcHeaderOf f, "    " ++ funcBodyOf f, ")", ""]

/-- The `describe` line a function test block opens with (line 297). -/
def describeLineOf (f : PyVal) : String :=
  "  describe(\x27" ++ pyStr (f.getD "name" PyVal.pyNone) ++ "\x27, () => \x7b"

/-- The `describe` line a scenario block opens with (line 332). -/
def scenarioDescribeLineOf (s : PyVal) : String :=
  "  describe(\x27Scenario: " ++ pyStr (s.getD "description" PyVal.pyNone)
    ++ "\x27, () => \x7b"

/-- The default import header of lines 268-269, used when no scraped
pattern mentions the client package. -/
def defaultImport : String :=
  "import \x7b Chain, Clarinet, Tx, types \x7d from \x27@stacks/blockchain-api-client\x27;\n"
    ++ "import \x7b describe, expect, it, beforeEach \x7d from \x27vitest\x27;"

/-- The test description of lines 210-221 as a pure function, for
descriptors whose used fields are strings. -/
def testDescOf (f : PyVal) : String :=
  if pyTruthy (f.getD "description" (PyVal.str "")) then
    "should " ++ pyLowerStr (pyStr (f.getD "description" (PyVal.str "")))
  else if pyTruthy (f.getD "expected_behavior" (PyVal.str "")) then
    "should " ++ pyLowerStr (pyStr (f.getD "expected_behavior" (PyVal.str "")))
  else
    "should execute " ++ pyReplaceStr (pyStr (f.getD "name" (PyVal.str ""))) "-" " "
      ++ " successfully"

/-- The assertion lines of lines 223-254 as a pure function, for an empty
`assertions` bucket. -/
def testAssertionsOf (f : PyVal) : List String :=
  "      expect(receipt.result).toBe(types.ok(true));" ::
  (if pyTruthy (f.getD "expected_behavior" (PyVal.str "")) then
    (if strContains (pyLowerStr (pyStr (f.getD "expected_behavior" (PyVal.str "")))) "error" then
      ["      expect(receipt.result).toHaveProperty(\x27error\x27);"] else []) ++
    (if strContains (pyLowerStr (pyStr (f.getD "expected_behavior" (PyVal.str "")))) "return" then
      ["      expect(receipt.result).not.toBeNull();"] else []) ++
    (if strContains (pyLowerStr (pyStr (f.getD "expected_behavior" (PyVal.str "")))) "state" then
      ["      // Verify state changes",
       "      const state = chain.getAssetsMaps();",
       "      expect(state).toBeDefined();"] else [])
  else [])

/-- The joined argument list of line 304 as a pure function, for a
string-list `args` field. -/
def argsJoinedOf (f : PyVal) : String :=
  String.intercalate ", " ((pyListOf (f.getD "args" (PyVal.list []))).map pyStr)

/-- The lines of one function test block under empty pattern buckets. -/
def funcTestLinesOf (contract_name : String) (f : PyVal) : List String :=
  [describeLineOf f,
   "    it(\x27" ++ testDescOf f ++ "\x27, () => \x7b",
   "      const deployer = accounts.get(\x27deployer\x27)!;",
   "      const receipt = chain.mineBlock([",
   "        Tx.contractCall(",
   "          \x27" ++ contract_name ++ "\x27,",
   "          \x27" ++ pyStr (f.getD "name" PyVal.pyNone) ++ "\x27,",
   "          [" ++ argsJoinedOf f ++ "],",
   "          deployer.address",
   "        )",
   "      ]).receipts[0];",
   ""] ++ testAssertionsOf f ++ ["    \x7d);", "  \x7d);", ""]

/-- The values of one scenario block under empty pattern buckets (the
`test_code` value is kept raw, as line 345 appends it). -/
def scenarioPyLinesOf (s : PyVal) : List PyVal :=
  [PyVal.str (scenarioDescribeLineOf s),
   PyVal.str "    it(\x27should handle the scenario correctly\x27, () => \x7b",
   s.getD "test_code" (PyVal.str "      // Add test implementation"),
   PyVal.str "    \x7d);", PyVal.str "  \x7d);", PyVal.str ""]

/-- The lines of one scenario block under empty pattern buckets. -/
def scenarioStrLinesOf (s : PyVal) : List String :=
  [scenarioDescribeLineOf s,
   "    it(\x27should handle the scenario correctly\x27, () => \x7b",
   pyStr (s.getD "test_code" (PyVal.str "      // Add test implementation")),
   "    \x7d);", "  \x7d);", ""]

/-- The fixed test-file head of lines 272-286 after the import block (the
tail of `testHeadLines`), with the contract name and description
substituted. -/
def testHeadTail (cn cd : String) : List String :=
  ["",
   "describe(\x27" ++ cn ++ "\x27, () => \x7b",
   "  // " ++ cd,
   "  let chain: Chain;",
   "  let accounts: Map<string, Account>;",
   "",
   "  beforeEach(() => \x7b",
   "    chain = new Chain();",
   "    accounts = new Map();",
   "    accounts.set(\x27deployer\x27, new Account(\x27ST1PQHQKV0RJXZFY1DGX8MNSNYVE3VGZJSRTPGZGM\x27));",
   "    accounts.set(\x27wallet_1\x27, new Account(\x27ST1SJ3DTE5DN7X54YDH5D64R3BCB6A2AG2ZQ8YPD5\x27));",
   "  \x7d);",
   ""]

/-! ## Infrastructure lemmas: lines of a newline join -/

lemma mk_data (s : String) : String.mk s.data = s := rfl

lemma noNL_append (a b : String) : noNL (a ++ b) = (noNL a && noNL b) := by
  simp [noNL]

lemma splitNLAux_append (l1 l2 : List Char) :
    ∀ acc, splitNLAux (l1 ++ '\n' :: l2) acc = splitNLAux l1 acc ++ splitNLAux l2 [] := by
  induction l1 with
  | nil => intro acc; simp [splitNLAux]
  | cons c cs ih =>
    intro acc
    by_cases h : c = '\n'
    · subst h; simp [splitNLAux, ih]
    · simp [splitNLAux, h, ih]

lemma splitNLAux_noNL (l : List Char) :
    ∀ acc, l.all (fun c => c != '\n') = true →
      splitNLAux l acc = [String.mk (acc.reverse ++ l)] := by
  induction l with
  | nil => intro acc _; simp [splitNLAux]
  | cons c cs ih =>
    intro acc h
    simp only [List.all_cons, Bool.and_eq_true, bne_iff_ne, ne_eq] at h
    simp [splitNLAux, h.1, ih (c :: acc) (by simpa using h.2)]

lemma splitNL_noNL (p : String) (h : noNL p = true) : splitNL p = [p] := by
  unfold splitNL
  rw [splitNLAux_noNL p.data [] h]
  simp [mk_data]

lemma intercalate_go_data (s : String) :
    ∀ (as : List String) (acc : String),
      (String.intercalate.go acc s as).data
        = acc.data ++ as.flatMap (fun a => s.data ++ a.data) := by
  intro as
  induction as with
  | nil => intro acc; simp [String.intercalate.go]
  | cons a as ih =>
    intro acc
    simp [String.intercalate.go, ih]

lemma intercalate_data (s a : String) (as : List String) :
    (String.intercalate s (a :: as)).data
      = a.data ++ as.flatMap (fun x => s.data ++ x.data) := by
  simp [String.intercalate, intercalate_go_data]

lemma splitNL_intercalate :
    ∀ (as : List String) (a : String),
      splitNL (String.intercalate "\n" (a :: as)) = splitNL a ++ as.flatMap splitNL := by
  intro as
  induction as with
  | nil => intro a; simp [String.intercalate, String.intercalate.go]
  | cons b bs ih =>
    intro a
    show splitNLAux (String.intercalate "\n" (a :: b :: bs)).data [] = _
    rw [intercalate_data]
    have hflat : (b :: bs).flatMap (fun x => ("\n").data ++ x.data)
        = '\n' :: (String.intercalate "\n" (b :: bs)).data := by
      rw [intercalate_data]
      simp
    rw [hflat, splitNLAux_append]
    show splitNL a ++ splitNL (String.intercalate "\n" (b :: bs)) = _
    rw [ih b]
    simp

lemma flatMap_splitNL_noNL (l : List String) (h : l.all noNL = true) :
    l.flatMap splitNL = l := by
  induction l with
  | nil => simp
  | cons a as ih =>
    simp only [List.all_cons, Bool.and_eq_true] at h
    simp [splitNL_noNL a h.1, ih h.2]

lemma splitNL_intercalate_noNL (a : String) (as : List String)
    (h : (a :: as).all noNL = true) :
    splitNL (String.intercalate "\n" (a :: as)) = a :: as := by
  simp only [List.all_cons, Bool.and_eq_true] at h
  rw [splitNL_intercalate, splitNL_noNL a h.1, flatMap_splitNL_noNL as h.2]
  simp

lemma noNL_intercalate (sep : String) (hs : noNL sep = true) :
    ∀ (l : List String), l.all noNL = true → noNL (String.intercalate sep l) = true := by
  intro l
  cases l with
  | nil => intro _; rfl
  | cons a as =>
    intro h
    simp only [List.all_cons, Bool.and_eq_true] at h
    have : (String.intercalate sep (a :: as)).data.all (fun c => c != '\n') = true := by
      rw [intercalate_data]
      simp only [List.all_append, List.all_flatMap, Bool.and_eq_true]
      refine ⟨h.1, ?_⟩
      rw [List.all_eq_true]
      intro x hx
      simp only [List.all_append, Bool.and_eq_true]
      exact ⟨hs, by
        have := h.2
        rw [List.all_eq_true] at this
        exact this x hx⟩
    exact this

/-! ## Cleanliness lemmas -/

lemma clean_lookup :
    ∀ (kvs : List (String × PyVal)), cleanPairs kvs = true →
      ∀ {k : String} {v : PyVal}, kvs.lookup k = some v → v.clean = true := by
  intro kvs
  induction kvs with
  | nil => intro _ k v hl; simp [List.lookup] at hl
  | cons kv kvs ih =>
    intro h k v hl
    obtain ⟨a, b⟩ := kv
    unfold cleanPairs at h
    simp only [Bool.and_eq_true] at h
    cases hk : k == a with
    | true =>
      simp [List.lookup, hk] at hl
      subst hl
      exact h.1.2
    | false =>
      simp [List.lookup, hk] at hl
      exact ih h.2 hl

lemma clean_getD {v : PyVal} (hv : v.clean = true) {d : PyVal} (hd : d.clean = true)
    (k : String) : (v.getD k d).clean = true := by
  cases v with
  | dict kvs =>
    show ((List.lookup k kvs).getD d).clean = true
    cases hl : List.lookup k kvs with
    | none => exact hd
    | some x => exact clean_lookup kvs (by simpa [PyVal.clean] using hv) hl
  | str s => exact hd
  | bool b => exact hd
  | list xs => exact hd
  | pyNone => exact hd

mutual
lemma pyRepr_noNL : ∀ (v : PyVal), v.clean = true → noNL (pyRepr v) = true
  | .str s, h => by
    unfold pyRepr
    rw [noNL_append, noNL_append]
    have hs : noNL s = true := by simpa [PyVal.clean] using h
    rw [hs]
    decide
  | .bool b, _ => by cases b <;> rfl
  | .pyNone, _ => rfl
  | .list xs, h => by
    unfold pyRepr
    rw [noNL_append, noNL_append]
    have hxs : (pyReprList xs).all noNL = true :=
      pyReprList_noNL xs (by simpa [PyVal.clean] using h)
    have : noNL (String.intercalate ", " (pyReprList xs)) = true :=
      noNL_intercalate ", " (by rfl) _ hxs
    rw [this]
    decide
  | .dict kvs, h => by
    unfold pyRepr
    rw [noNL_append, noNL_append]
    have hkvs : (pyReprPairs kvs).all noNL = true :=
      pyReprPairs_noNL kvs (by simpa [PyVal.clean] using h)
    have : noNL (String.intercalate ", " (pyReprPairs kvs)) = true :=
      noNL_intercalate ", " (by rfl) _ hkvs
    rw [this]
    decide
lemma pyReprList_noNL : ∀ (xs : List PyVal), cleanList xs = true →
    (pyReprList xs).all noNL = true
  | [], _ => rfl
  | v :: vs, h => by
    unfold cleanList at h
    simp only [Bool.and_eq_true] at h
    unfold pyReprList
    simp only [List.all_cons, Bool.and_eq_true]
    exact ⟨pyRepr_noNL v h.1, pyReprList_noNL vs h.2⟩
lemma pyReprPairs_noNL : ∀ (kvs : List (String × PyVal)), cleanPairs kvs = true →
    (pyReprPairs kvs).all noNL = true
  | [], _ => rfl
  | (k, v) :: kvs, h => by
    unfold cleanPairs at h
    simp only [Bool.and_eq_true] at h
    unfold pyReprPairs
    simp only [List.all_cons, Bool.and_eq_true]
    refine ⟨?_, pyReprPairs_noNL kvs h.2⟩
    rw [noNL_append, noNL_append, noNL_append]
    rw [h.1.1, pyRepr_noNL v h.1.2]
    decide
end

lemma pyStr_noNL (v : PyVal) (h : v.clean = true) : noNL (pyStr v) = true := by
  cases v with
  | str s => simpa [pyStr, PyVal.clean] using h
  | bool b => exact pyRepr_noNL _ h
  | list xs => exact pyRepr_noNL _ h
  | dict kvs => exact pyRepr_noNL _ h
  | pyNone => exact pyRepr_noNL _ h

/-! ## No-raise lemmas for the contract generator -/

lemma getD_of_hasKey (v : PyVal) (k : String) (h : v.hasKey k = true) (d₁ d₂ : PyVal) :
    v.getD k d₁ = v.getD k d₂ := by
  cases v with
  | dict kvs =>
    show (List.lookup k kvs).getD d₁ = (List.lookup k kvs).getD d₂
    have := h
    unfold PyVal.hasKey at this
    rw [Option.isSome_iff_exists] at this
    obtain ⟨x, hx⟩ := this
    rw [hx]
    rfl
  | str s => simp [PyVal.hasKey] at h
  | bool b => simp [PyVal.hasKey] at h
  | list xs => simp [PyVal.hasKey] at h
  | pyNone => simp [PyVal.hasKey] at h

lemma getItem_of_hasKey (v : PyVal) (k : String) (h : v.hasKey k = true) (d : PyVal) :
    v.getItem k = Except.ok (v.getD k d) := by
  cases v with
  | dict kvs =>
    have := h
    unfold PyVal.hasKey at this
    rw [Option.isSome_iff_exists] at this
    obtain ⟨x, hx⟩ := this
    show (match List.lookup k kvs with
          | some x => Except.ok x
          | Option.none => Except.error ("KeyError: " ++ k)) = _
    rw [hx]
    show _ = Except.ok ((List.lookup k kvs).getD d)
    rw [hx]
    rfl
  | str s => simp [PyVal.hasKey] at h
  | bool b => simp [PyVal.hasKey] at h
  | list xs => simp [PyVal.hasKey] at h
  | pyNone => simp [PyVal.hasKey] at h

lemma paramStr_ok (p : PyVal) (h : paramEntryOk p = true) :
    paramStr p = Except.ok (paramStrPure p) := by
  unfold paramEntryOk at h
  simp only [Bool.and_eq_true] at h
  unfold paramStr paramStrPure
  rw [getItem_of_hasKey p "name" h.1.2 PyVal.pyNone,
      getItem_of_hasKey p "type" h.2 PyVal.pyNone]
  rfl

lemma mapME_map (f : α → Except String β) (g : α → β) :
    ∀ (l : List α), (∀ x ∈ l, f x = .ok (g x)) → mapME f l = .ok (l.map g) := by
  intro l
  induction l with
  | nil => intro _; rfl
  | cons a as ih =>
    intro h
    unfold mapME
    rw [h a (List.mem_cons_self a as), ih (fun x hx => h x (List.mem_cons_of_mem a hx))]
    rfl

lemma mapME_ok_of (f : α → Except String β) :
    ∀ (l : List α), (∀ x ∈ l, ∃ y, f x = .ok y) → ∃ ys, mapME f l = .ok ys := by
  intro l
  induction l with
  | nil => intro _; exact ⟨[], rfl⟩
  | cons a as ih =>
    intro h
    obtain ⟨y, hy⟩ := h a (List.mem_cons_self a as)
    obtain ⟨ys, hys⟩ := ih (fun x hx => h x (List.mem_cons_of_mem a hx))
    refine ⟨y :: ys, ?_⟩
    unfold mapME
    rw [hy, hys]
    rfl

lemma bind_ok_eq {ε α β : Type} (x : Except ε α) (a : α) (h : x = Except.ok a)
    (k : α → Except ε β) : (x >>= k) = k a := by
  rw [h]
  rfl

lemma funcArgsStr_ok (f : PyVal) (hwf : isWfFunc f = true) (h : smartFuncOk f = true) :
    funcArgsStr f = Except.ok (argsStrOf f) := by
  have h' := h
  unfold smartFuncOk at h'
  rw [if_pos hwf] at h'
  unfold funcArgsStr argsStrOf
  by_cases hp : f.hasKey "parameters" = true
  · rw [if_pos hp] at h'
    rw [if_pos hp, if_pos hp, getD_of_hasKey f "parameters" hp (PyVal.list []) PyVal.pyNone]
    cases hv : f.getD "parameters" PyVal.pyNone with
    | list ps =>
      rw [hv] at h'
      unfold paramsFieldOk at h'
      have hm : mapME paramStr ps = Except.ok (ps.map paramStrPure) := by
        refine mapME_map paramStr paramStrPure ps ?_
        intro x hx
        refine paramStr_ok x ?_
        rw [List.all_eq_true] at h'
        exact h' x hx
      rw [bind_ok_eq (pyIter (PyVal.list ps)) ps rfl, bind_ok_eq _ _ hm]
      rfl
    | str s => rw [hv] at h'; simp [paramsFieldOk] at h'
    | bool b => rw [hv] at h'; simp [paramsFieldOk] at h'
    | dict kvs => rw [hv] at h'; simp [paramsFieldOk] at h'
    | pyNone => rw [hv] at h'; simp [paramsFieldOk] at h'
  · rw [if_neg hp] at h'
    rw [if_neg hp, if_neg hp]
    by_cases ha : f.hasKey "args" = true
    · rw [if_pos ha] at h'
      rw [if_pos ha, if_pos ha, getD_of_hasKey f "args" ha (PyVal.list []) PyVal.pyNone]
      cases hv : f.getD "args" PyVal.pyNone with
      | list ps =>
        rw [hv] at h'
        unfold paramsFieldOk at h'
        have hm : mapME paramStr ps = Except.ok (ps.map paramStrPure) := by
          refine mapME_map paramStr paramStrPure ps ?_
          intro x hx
          refine paramStr_ok x ?_
          rw [List.all_eq_true] at h'
          exact h' x hx
        rw [bind_ok_eq (pyIter (PyVal.list ps)) ps rfl, bind_ok_eq _ _ hm]
        rfl
      | str s => rw [hv] at h'; simp [paramsFieldOk] at h'
      | bool b => rw [hv] at h'; simp [paramsFieldOk] at h'
      | dict kvs => rw [hv] at h'; simp [paramsFieldOk] at h'
      | pyNone => rw [hv] at h'; simp [paramsFieldOk] at h'
    · rw [if_neg ha, if_neg ha]
      rfl

lemma funcBlock_ok (f : PyVal) (hwf : isWfFunc f = true) (h : smartFuncOk f = true) :
    funcBlock f = Except.ok (funcBlockLines f) := by
  unfold funcBlock
  rw [if_pos hwf, bind_ok_eq _ _ (funcArgsStr_ok f hwf h)]
  rfl

lemma funcBlock_skip (f : PyVal) (hwf : isWfFunc f = false) :
    funcBlock f = Except.ok [] := by
  unfold funcBlock
  rw [if_neg (by rw [hwf]; exact Bool.false_ne_true)]
  rfl

lemma funcBlock_ok_any (f : PyVal) (h : smartFuncOk f = true) :
    ∃ ls, funcBlock f = Except.ok ls := by
  by_cases hwf : isWfFunc f = true
  · exact ⟨funcBlockLines f, funcBlock_ok f hwf h⟩
  · exact ⟨[], funcBlock_skip f (by rwa [Bool.not_eq_true] at hwf)⟩

lemma functionsSection_ok (fs : Option (List PyVal))
    (h : (fs.getD []).all smartFuncOk = true) :
    ∃ parts, functionsSection fs = Except.ok parts := by
  unfold functionsSection
  by_cases ht : sectionTruthy fs = true
  · rw [if_pos ht]
    obtain ⟨ys, hys⟩ := mapME_ok_of funcBlock (fs.getD []) (by
      intro x hx
      refine funcBlock_ok_any x ?_
      rw [List.all_eq_true] at h
      exact h x hx)
    exact ⟨";; Functions" :: ys.flatten, by rw [bind_ok_eq _ _ hys]; rfl⟩
  · rw [if_neg ht]
    exact ⟨[], rfl⟩

lemma smartRun_ok (cn : String) (feats : List String)
    (dv mp ec fs : Option (List PyVal))
    (h : (fs.getD []).all smartFuncOk = true) :
    ∃ s, SmartContractGenerator_run cn feats dv mp fs ec = Except.ok s := by
  obtain ⟨parts, hp⟩ := functionsSection_ok fs h
  refine ⟨String.intercalate "\n"
    ([";; " ++ cn, ";; Generated smart contract based on Clarity documentation patterns", ""]
      ++ dataVarsSection dv ++ mapsSection mp ++ parts ++ errorCodesSection ec), ?_⟩
  unfold SmartContractGenerator_run
  rw [bind_ok_eq _ _ hp]
  rfl

/-! ## Helper lemmas for computing whole outputs -/

lemma intercalate_head (a : String) (as : List String) (tail : String)
    (h : tail.data = as.flatMap (fun x => '\n' :: x.data)) :
    String.intercalate "\n" (a :: as) = a ++ tail := by
  apply String.ext
  rw [intercalate_data, String.data_append, h]
  rfl

lemma dataVarLine_none (v : PyVal) (h : isWfDataVar v = false) :
    dataVarLine v = Option.none := by
  unfold dataVarLine
  rw [if_neg (by rw [h]; exact Bool.false_ne_true)]

lemma mapLine_none (v : PyVal) (h : isWfMapDef v = false) :
    mapLine v = Option.none := by
  unfold mapLine
  rw [if_neg (by rw [h]; exact Bool.false_ne_true)]

lemma errorLines_nil (v : PyVal) (h : isWfErrorCode v = false) :
    errorLines v = [] := by
  unfold errorLines
  rw [if_neg (by rw [h]; exact Bool.false_ne_true)]

/-! ## Claim theorems -/

/-- Claim C1 (status: code_bug).  Evaluation of the scaffold generator on
the literal scenario of the spec: contract `vault`, the single function
descriptor `name=deposit, is_read_only=False, body=(ok true)`, every other
descriptor list empty.  Line 137 of the source interpolates `func_type`
(already `define-public`) after a literal `define-`, so the emitted header
line is `(define-define-public (deposit )`; the line
`(define-public (deposit )` required by the spec appears nowhere, while
the following `    (ok true)` and `)` lines are as specified. -/
theorem c1_vault_deposit_eval :
    SmartContractGenerator_run "vault" [] (some []) (some [])
      (some [PyVal.dict [("name", PyVal.str "deposit"),
                         ("is_read_only", PyVal.bool false),
                         ("body", PyVal.str "(ok true)")]]) (some [])
      = Except.ok ";; vault\n;; Generated smart contract based on Clarity documentation patterns\n\n;; Functions\n(define-define-public (deposit )\n    (ok true)\n)\n"
    ∧ splitNL ";; vault\n;; Generated smart contract based on Clarity documentation patterns\n\n;; Functions\n(define-define-public (deposit )\n    (ok true)\n)\n"
      = [";; vault", ";; Generated smart contract based on Clarity documentation patterns",
         "", ";; Functions", "(define-define-public (deposit )", "    (ok true)", ")", ""]
    ∧ (([";; vault", ";; Generated smart contract based on Clarity documentation patterns",
         "", ";; Functions", "(define-define-public (deposit )", "    (ok true)", ")", ""]
          : List String).contains "(define-public (deposit )") = false := by
  refine ⟨rfl, rfl, rfl⟩

/-- Claim C7 (status: confirmed).  The `features` argument is bound by
`SmartContractGenerator._run` and never read (lines 83-154), so outputs
for any two feature lists and otherwise equal arguments are equal. -/
theorem c7_features_unused (contract_name : String) (features₁ features₂ : List String)
    (data_vars maps functions error_codes : Option (List PyVal)) :
    SmartContractGenerator_run contract_name features₁ data_vars maps functions error_codes
      = SmartContractGenerator_run contract_name features₂ data_vars maps functions error_codes :=
  rfl

/-- Claim C6 (status: confirmed).  For every topic, when every fetch fails
(an exception, absorbed by the per-URL `except: continue` of line 59, or a
non-200 status, filtered on line 37), no record is collected and the
scraper returns `json.dumps([])`, the serialization of the empty array;
the embedding is a total function, so no exception escapes. -/
theorem c6_scraper_all_fail (topic : String) (fetch : String → FetchResult)
    (h : ∀ url, fetchFails (fetch url) = true) :
    ClarityDocScraper_run topic fetch = "[]" := by
  have hrec : ∀ r, fetchFails r = true → scrapeRecordsOf topic r = [] := by
    intro r hr
    cases r with
    | fail => rfl
    | okPage st cb ex =>
      have hst : (st != 200) = true := hr
      have hne : ¬ st = 200 := by simpa using hst
      simp only [scrapeRecordsOf]
      rw [if_neg hne]
  have hall : ∀ (urls : List String),
      (urls.map (fun url => scrapeRecordsOf topic (fetch url))).flatten = [] := by
    intro urls
    induction urls with
    | nil => rfl
    | cons u us ih => simp [hrec (fetch u) (h u), ih]
  unfold ClarityDocScraper_run
  simp only [hall]
  rfl

/-- Claim C6 witness: a concrete topic and an always-failing fetch. -/
theorem c6_scraper_all_fail_witness :
    ClarityDocScraper_run "token" (fun _ => FetchResult.fail) = "[]" :=
  c6_scraper_all_fail "token" (fun _ => FetchResult.fail) (fun _ => rfl)

/-- Claim C10 (status: confirmed).  A non-empty `data_vars`, `maps` or
`error_codes` list is truthy, so its section header is emitted
(lines 100/109/145) and the trailing blank is appended after the loop
(lines 105/116/152) even when every entry is malformed and skipped: the
output consists of the three header lines followed by exactly
`;; Data vars`, blank, `;; Maps`, blank, `;; Error codes`, blank, with no
descriptor line in between. -/
theorem c10_all_malformed_sections (cn : String) (feats : List String)
    (dvl mpl ecl : List PyVal)
    (h1 : dvl ≠ []) (h2 : mpl ≠ []) (h3 : ecl ≠ [])
    (b1 : dvl.all (fun v => !isWfDataVar v) = true)
    (b2 : mpl.all (fun v => !isWfMapDef v) = true)
    (b3 : ecl.all (fun v => !isWfErrorCode v) = true) :
    SmartContractGenerator_run cn feats (some dvl) (some mpl) Option.none (some ecl)
      = Except.ok (";; " ++ cn
          ++ "\n;; Generated smart contract based on Clarity documentation patterns\n\n;; Data vars\n\n;; Maps\n\n;; Error codes\n") := by
  have hdv : dataVarsSection (some dvl) = [";; Data vars", ""] := by
    unfold dataVarsSection
    rw [if_pos (by simpa [sectionTruthy] using h1)]
    rw [show (some dvl).getD [] = dvl from rfl]
    rw [List.filterMap_eq_nil_iff.mpr (by
      intro a ha
      rw [List.all_eq_true] at b1
      exact dataVarLine_none a (by simpa using b1 a ha))]
    rfl
  have hmp : mapsSection (some mpl) = [";; Maps", ""] := by
    unfold mapsSection
    rw [if_pos (by simpa [sectionTruthy] using h2)]
    rw [show (some mpl).getD [] = mpl from rfl]
    rw [List.filterMap_eq_nil_iff.mpr (by
      intro a ha
      rw [List.all_eq_true] at b2
      exact mapLine_none a (by simpa using b2 a ha))]
    rfl
  have hec : errorCodesSection (some ecl) = [";; Error codes", ""] := by
    unfold errorCodesSection
    rw [if_pos (by simpa [sectionTruthy] using h3)]
    rw [show (some ecl).getD [] = ecl from rfl]
    have : ecl.flatMap errorLines = [] := by
      rw [List.flatMap_eq_nil_iff]
      intro a ha
      rw [List.all_eq_true] at b3
      exact errorLines_nil a (by simpa using b3 a ha)
    rw [this]
    rfl
  unfold SmartContractGenerator_run
  rw [show functionsSection Option.none = Except.ok [] from rfl]
  rw [bind_ok_eq _ _ (rfl : (Except.ok [] : Except String (List String)) = Except.ok [])]
  rw [hdv, hmp, hec]
  refine congrArg Except.ok ?_
  refine intercalate_head _ _ _ ?_
  rfl

/-- Claim C10 witness: one malformed entry of each kind (a bare string, a
dictionary with no keys, an error dictionary missing `code`). -/
theorem c10_all_malformed_sections_witness :
    SmartContractGenerator_run "vault" [] (some [PyVal.str "oops"])
      (some [PyVal.dict []]) Option.none
      (some [PyVal.dict [("name", PyVal.str "ERR_A")]])
      = Except.ok (";; " ++ "vault"
          ++ "\n;; Generated smart contract based on Clarity documentation patterns\n\n;; Data vars\n\n;; Maps\n\n;; Error codes\n") :=
  c10_all_malformed_sections "vault" [] [PyVal.str "oops"] [PyVal.dict []]
    [PyVal.dict [("name", PyVal.str "ERR_A")]]
    (List.cons_ne_nil _ _) (List.cons_ne_nil _ _) (List.cons_ne_nil _ _)
    (by decide) (by decide) (by decide)

/-- Claim C8 (status: confirmed).  Default values for missing optional
sub-fields of well-formed descriptors, read off the exact output: a data
variable without `initial` is rendered with the value `false` (line 104); a
map without key/value type fields gets `principal` and `bool`
(lines 113-114); a function without `is_read_only` takes the non-read-only
branch (line 133, the header says `define-define-public` because of the
doubled `define-` of line 137, not `define-define-read-only`), one without
`body` gets `(ok true)` (line 134) and one with neither `parameters` nor
`args` gets the empty argument string (line 131). -/
theorem c8_defaults (n t mn fn : String) :
    SmartContractGenerator_run "c" []
      (some [PyVal.dict [("name", PyVal.str n), ("type", PyVal.str t)]])
      Option.none Option.none Option.none
      = Except.ok (String.intercalate "\n"
          [";; c", ";; Generated smart contract based on Clarity documentation patterns", "",
           ";; Data vars", "(define-data-var " ++ n ++ " " ++ t ++ " false)", ""])
  ∧ SmartContractGenerator_run "c" [] Option.none
      (some [PyVal.dict [("name", PyVal.str mn)]]) Option.none Option.none
      = Except.ok (String.intercalate "\n"
          [";; c", ";; Generated smart contract based on Clarity documentation patterns", "",
           ";; Maps", "(define-map " ++ mn ++ " principal bool)", ""])
  ∧ SmartContractGenerator_run "c" [] Option.none Option.none
      (some [PyVal.dict [("name", PyVal.str fn)]]) Option.none
      = Except.ok (String.intercalate "\n"
          [";; c", ";; Generated smart contract based on Clarity documentation patterns", "",
           ";; Functions", "(define-define-public (" ++ fn ++ " )", "    (ok true)", ")", ""]) := by
  refine ⟨?_, ?_, ?_⟩
  · show Except.ok (String.intercalate "\n"
      [";; c", ";; Generated smart contract based on Clarity documentation patterns", "",
       ";; Data vars",
       "(define-data-var " ++ n ++ " " ++ t ++ " " ++ "false" ++ ")", ""]) = _
    simp only [String.append_assoc]
    rfl
  · show Except.ok (String.intercalate "\n"
      [";; c", ";; Generated smart contract based on Clarity documentation patterns", "",
       ";; Maps",
       "(define-map " ++ mn ++ " " ++ "principal" ++ " " ++ "bool" ++ ")", ""]) = _
    simp only [String.append_assoc]
    rfl
  · show Except.ok (String.intercalate "\n"
      [";; c", ";; Generated smart contract based on Clarity documentation patterns", "",
       ";; Functions",
       "(define-" ++ "define-public" ++ " (" ++ fn ++ " " ++ "" ++ ")",
       "    " ++ "(ok true)", ")", ""]) = _
    simp only [String.append_assoc]
    rfl

lemma dataVarsSection_insert (dv1 dv2 : List PyVal) (d : PyVal)
    (hb : isWfDataVar d = false) (h : dv1 ++ dv2 ≠ []) :
    dataVarsSection (some (dv1 ++ d :: dv2)) = dataVarsSection (some (dv1 ++ dv2)) := by
  have t1 : sectionTruthy (some (dv1 ++ d :: dv2)) = true := by
    simp [sectionTruthy]
  have t2 : sectionTruthy (some (dv1 ++ dv2)) = true := by
    cases hx : dv1 ++ dv2 with
    | nil => exact absurd hx h
    | cons a l => rfl
  unfold dataVarsSection
  rw [if_pos t1, if_pos t2,
      show (some (dv1 ++ d :: dv2)).getD [] = dv1 ++ d :: dv2 from rfl,
      show (some (dv1 ++ dv2)).getD [] = dv1 ++ dv2 from rfl,
      List.filterMap_append, List.filterMap_append, List.filterMap_cons,
      dataVarLine_none d hb]

lemma mapsSection_insert (mp1 mp2 : List PyVal) (d : PyVal)
    (hb : isWfMapDef d = false) (h : mp1 ++ mp2 ≠ []) :
    mapsSection (some (mp1 ++ d :: mp2)) = mapsSection (some (mp1 ++ mp2)) := by
  have t1 : sectionTruthy (some (mp1 ++ d :: mp2)) = true := by
    simp [sectionTruthy]
  have t2 : sectionTruthy (some (mp1 ++ mp2)) = true := by
    cases hx : mp1 ++ mp2 with
    | nil => exact absurd hx h
    | cons a l => rfl
  unfold mapsSection
  rw [if_pos t1, if_pos t2,
      show (some (mp1 ++ d :: mp2)).getD [] = mp1 ++ d :: mp2 from rfl,
      show (some (mp1 ++ mp2)).getD [] = mp1 ++ mp2 from rfl,
      List.filterMap_append, List.filterMap_append, List.filterMap_cons,
      mapLine_none d hb]

lemma errorCodesSection_insert (ec1 ec2 : List PyVal) (d : PyVal)
    (hb : isWfErrorCode d = false) (h : ec1 ++ ec2 ≠ []) :
    errorCodesSection (some (ec1 ++ d :: ec2)) = errorCodesSection (some (ec1 ++ ec2)) := by
  have t1 : sectionTruthy (some (ec1 ++ d :: ec2)) = true := by
    simp [sectionTruthy]
  have t2 : sectionTruthy (some (ec1 ++ ec2)) = true := by
    cases hx : ec1 ++ ec2 with
    | nil => exact absurd hx h
    | cons a l => rfl
  unfold errorCodesSection
  rw [if_pos t1, if_pos t2,
      show (some (ec1 ++ d :: ec2)).getD [] = ec1 ++ d :: ec2 from rfl,
      show (some (ec1 ++ ec2)).getD [] = ec1 ++ ec2 from rfl,
      List.flatMap_append, List.flatMap_append, List.flatMap_cons,
      errorLines_nil d hb]
  simp

/-- Claim C4 (status: confirmed).  A data-variable, map or error-code
descriptor that is not a dictionary or lacks a required key fails the loop
guard (lines 102/111/147) and is skipped by `continue`: inserting such a
descriptor anywhere into its list leaves the entire result (including its
success/failure status) unchanged, so it contributes no line and raises no
error; and with such descriptors present the generator still returns a
string (second conjunct).  The lists without the malformed entry are
required to be non-empty so that the section itself stays truthy on both
sides. -/
theorem c4_malformed_entries_skipped (cn : String) (feats : List String)
    (dv1 dv2 mp1 mp2 ec1 ec2 : List PyVal) (fs : Option (List PyVal))
    (d1 d2 d3 : PyVal)
    (hb1 : isWfDataVar d1 = false) (hb2 : isWfMapDef d2 = false)
    (hb3 : isWfErrorCode d3 = false)
    (h1 : dv1 ++ dv2 ≠ []) (h2 : mp1 ++ mp2 ≠ []) (h3 : ec1 ++ ec2 ≠ []) :
    SmartContractGenerator_run cn feats (some (dv1 ++ d1 :: dv2))
        (some (mp1 ++ d2 :: mp2)) fs (some (ec1 ++ d3 :: ec2))
      = SmartContractGenerator_run cn feats (some (dv1 ++ dv2))
          (some (mp1 ++ mp2)) fs (some (ec1 ++ ec2))
    ∧ ∃ s, SmartContractGenerator_run cn feats (some (dv1 ++ d1 :: dv2))
        (some (mp1 ++ d2 :: mp2)) Option.none (some (ec1 ++ d3 :: ec2)) = Except.ok s := by
  constructor
  · unfold SmartContractGenerator_run
    simp only [dataVarsSection_insert dv1 dv2 d1 hb1 h1,
               mapsSection_insert mp1 mp2 d2 hb2 h2,
               errorCodesSection_insert ec1 ec2 d3 hb3 h3]
  · exact smartRun_ok cn feats (some (dv1 ++ d1 :: dv2)) (some (mp1 ++ d2 :: mp2))
      (some (ec1 ++ d3 :: ec2)) Option.none rfl

/-- Claim C4 witness: concrete lists with one malformed descriptor of each
kind inserted in the middle. -/
theorem c4_malformed_entries_skipped_witness :
    SmartContractGenerator_run "vault" ["minting"]
        (some ([PyVal.dict [("name", PyVal.str "total"), ("type", PyVal.str "uint")]]
          ++ PyVal.str "bad" :: []))
        (some ([PyVal.dict [("name", PyVal.str "balances")]] ++ PyVal.dict [] :: []))
        Option.none
        (some ([PyVal.dict [("name", PyVal.str "ERR_A"), ("code", PyVal.str "100")]]
          ++ PyVal.dict [("name", PyVal.str "ERR_B")] :: []))
      = SmartContractGenerator_run "vault" ["minting"]
          (some ([PyVal.dict [("name", PyVal.str "total"), ("type", PyVal.str "uint")]] ++ []))
          (some ([PyVal.dict [("name", PyVal.str "balances")]] ++ []))
          Option.none
          (some ([PyVal.dict [("name", PyVal.str "ERR_A"), ("code", PyVal.str "100")]] ++ []))
    ∧ ∃ s, SmartContractGenerator_run "vault" ["minting"]
        (some ([PyVal.dict [("name", PyVal.str "total"), ("type", PyVal.str "uint")]]
          ++ PyVal.str "bad" :: []))
        (some ([PyVal.dict [("name", PyVal.str "balances")]] ++ PyVal.dict [] :: []))
        Option.none
        (some ([PyVal.dict [("name", PyVal.str "ERR_A"), ("code", PyVal.str "100")]]
          ++ PyVal.dict [("name", PyVal.str "ERR_B")] :: []))
        = Except.ok s :=
  c4_malformed_entries_skipped "vault" ["minting"]
    [PyVal.dict [("name", PyVal.str "total"), ("type", PyVal.str "uint")]] []
    [PyVal.dict [("name", PyVal.str "balances")]] []
    [PyVal.dict [("name", PyVal.str "ERR_A"), ("code", PyVal.str "100")]] []
    Option.none (PyVal.str "bad") (PyVal.dict []) (PyVal.dict [("name", PyVal.str "ERR_B")])
    (by decide) (by decide) (by decide)
    (List.cons_ne_nil _ _) (List.cons_ne_nil _ _) (List.cons_ne_nil _ _)

/-! ## No-raise lemmas for the test generator -/

lemma getD_of_not_hasKey (v : PyVal) (k : String) (h : v.hasKey k = false)
    (d : PyVal) : v.getD k d = d := by
  cases v with
  | dict kvs =>
    show (List.lookup k kvs).getD d = d
    cases hl : List.lookup k kvs with
    | none => rfl
    | some x => simp [PyVal.hasKey, hl] at h
  | str s => rfl
  | bool b => rfl
  | list xs => rfl
  | pyNone => rfl

lemma optFieldStr_getD (f : PyVal) (k : String) (h : optFieldStr f k = true)
    (s₀ : String) : isStrVal (f.getD k (PyVal.str s₀)) = true := by
  unfold optFieldStr at h
  by_cases hk : f.hasKey k = true
  · rw [if_pos hk] at h
    rw [getD_of_hasKey f k hk (PyVal.str s₀) PyVal.pyNone]
    exact h
  · rw [getD_of_not_hasKey f k (by rwa [Bool.not_eq_true] at hk) (PyVal.str s₀)]
    rfl

lemma isStr_pyLower (v : PyVal) (h : isStrVal v = true) :
    ∃ s, pyLower v = Except.ok s := by
  cases v with
  | str s => exact ⟨pyLowerStr s, rfl⟩
  | bool b => simp [isStrVal] at h
  | list xs => simp [isStrVal] at h
  | dict kvs => simp [isStrVal] at h
  | pyNone => simp [isStrVal] at h

lemma isStr_pyAsStr (v : PyVal) (h : isStrVal v = true) :
    ∃ s, pyAsStr v = Except.ok s := by
  cases v with
  | str s => exact ⟨s, rfl⟩
  | bool b => simp [isStrVal] at h
  | list xs => simp [isStrVal] at h
  | dict kvs => simp [isStrVal] at h
  | pyNone => simp [isStrVal] at h

lemma hasKey_of_isWfFunc (f : PyVal) (h : isWfFunc f = true) :
    f.hasKey "name" = true := by
  unfold isWfFunc at h
  simp only [Bool.and_eq_true] at h
  exact h.2

lemma generateTestDescription_ok (f : PyVal) (hwf : isWfFunc f = true)
    (h : testFuncOk f = true) : ∃ s, generateTestDescription f = Except.ok s := by
  have h' := h
  unfold testFuncOk at h'
  rw [if_pos hwf] at h'
  simp only [Bool.and_eq_true] at h'
  have hn : isStrVal (f.getD "name" (PyVal.str "")) = true := by
    rw [getD_of_hasKey f "name" (hasKey_of_isWfFunc f hwf) (PyVal.str "") PyVal.pyNone]
    exact h'.1.1.1
  obtain ⟨ns, hns⟩ := isStr_pyAsStr _ hn
  have hd : isStrVal (f.getD "description" (PyVal.str "")) = true :=
    optFieldStr_getD f "description" h'.1.1.2 ""
  have he : isStrVal (f.getD "expected_behavior" (PyVal.str "")) = true :=
    optFieldStr_getD f "expected_behavior" h'.1.2 ""
  unfold generateTestDescription
  rw [bind_ok_eq _ _ hns]
  by_cases ht : pyTruthy (f.getD "description" (PyVal.str "")) = true
  · rw [if_pos ht]
    obtain ⟨ds, hds⟩ := isStr_pyLower _ hd
    rw [bind_ok_eq _ _ hds]
    exact ⟨_, rfl⟩
  · rw [if_neg ht]
    by_cases he' : pyTruthy (f.getD "expected_behavior" (PyVal.str "")) = true
    · rw [if_pos he']
      obtain ⟨es, hes⟩ := isStr_pyLower _ he
      rw [bind_ok_eq _ _ hes]
      exact ⟨_, rfl⟩
    · rw [if_neg he']
      exact ⟨_, rfl⟩

lemma filterME_ok_of (f : α → Except String Bool) :
    ∀ (l : List α), (∀ x ∈ l, ∃ b, f x = .ok b) → ∃ r, filterME f l = .ok r := by
  intro l
  induction l with
  | nil => intro _; exact ⟨[], rfl⟩
  | cons a as ih =>
    intro h
    obtain ⟨b, hb⟩ := h a (List.mem_cons_self a as)
    obtain ⟨r, hr⟩ := ih (fun x hx => h x (List.mem_cons_of_mem a hx))
    refine ⟨if b then a :: r else r, ?_⟩
    unfold filterME
    rw [bind_ok_eq _ _ hb, bind_ok_eq _ _ hr]
    rfl

lemma generateTestAssertions_ok (f : PyVal) (hwf : isWfFunc f = true)
    (h : testFuncOk f = true) (patterns : Patterns) :
    ∃ ls, generateTestAssertions f patterns = Except.ok ls := by
  have h' := h
  unfold testFuncOk at h'
  rw [if_pos hwf] at h'
  simp only [Bool.and_eq_true] at h'
  have hn : isStrVal (f.getD "name" (PyVal.str "")) = true := by
    rw [getD_of_hasKey f "name" (hasKey_of_isWfFunc f hwf) (PyVal.str "") PyVal.pyNone]
    exact h'.1.1.1
  have he : isStrVal (f.getD "expected_behavior" (PyVal.str "")) = true :=
    optFieldStr_getD f "expected_behavior" h'.1.2 ""
  obtain ⟨r, hr⟩ := filterME_ok_of (relevantAssertion (f.getD "name" (PyVal.str "")))
    patterns.assertions (by
      intro p hp
      obtain ⟨nl, hnl⟩ := isStr_pyLower _ hn
      refine ⟨["expect", "assert", nl].any (fun key => strContains (pyLowerStr p) key), ?_⟩
      unfold relevantAssertion
      rw [bind_ok_eq _ _ hnl]
      rfl)
  unfold generateTestAssertions
  rw [bind_ok_eq _ _ hr]
  by_cases ht : pyTruthy (f.getD "expected_behavior" (PyVal.str "")) = true
  · rw [if_pos ht]
    obtain ⟨es, hes⟩ := isStr_pyLower _ he
    rw [bind_ok_eq _ _ hes]
    exact ⟨_, rfl⟩
  · rw [if_neg ht]
    exact ⟨_, rfl⟩

lemma pyJoin_all_str (sep : String) (xs : List PyVal) (h : xs.all isStrVal = true) :
    pyJoin sep (PyVal.list xs) = Except.ok (String.intercalate sep (xs.map pyStr)) := by
  unfold pyJoin
  rw [bind_ok_eq (pyIter (PyVal.list xs)) xs rfl]
  have : mapME pyAsStr xs = Except.ok (xs.map pyStr) := by
    refine mapME_map pyAsStr pyStr xs ?_
    intro x hx
    rw [List.all_eq_true] at h
    have := h x hx
    cases x with
    | str s => rfl
    | bool b => simp [isStrVal] at this
    | list l => simp [isStrVal] at this
    | dict kvs => simp [isStrVal] at this
    | pyNone => simp [isStrVal] at this
  rw [bind_ok_eq _ _ this]
  rfl

lemma mapME_ok_prop (f : α → Except String β) (P : β → Prop) :
    ∀ (l : List α), (∀ x ∈ l, ∃ y, f x = .ok y ∧ P y) →
      ∃ ys, mapME f l = .ok ys ∧ ∀ y ∈ ys, P y := by
  intro l
  induction l with
  | nil => intro _; exact ⟨[], rfl, by intro y hy; simp at hy⟩
  | cons a as ih =>
    intro h
    obtain ⟨y, hy, hPy⟩ := h a (List.mem_cons_self a as)
    obtain ⟨ys, hys, hPys⟩ := ih (fun x hx => h x (List.mem_cons_of_mem a hx))
    refine ⟨y :: ys, ?_, ?_⟩
    · unfold mapME
      rw [hy, hys]
      rfl
    · intro z hz
      rcases List.mem_cons.mp hz with hz | hz
      · rw [hz]; exact hPy
      · exact hPys z hz

lemma funcTestBlock_ok (cn : String) (patterns : Patterns) (f : PyVal)
    (h : testFuncOk f = true) :
    ∃ ls, funcTestBlock cn patterns f = Except.ok ls ∧ ls.all isStrVal = true := by
  by_cases hwf : isWfFunc f = true
  · have h' := h
    unfold testFuncOk at h'
    rw [if_pos hwf] at h'
    simp only [Bool.and_eq_true] at h'
    obtain ⟨td, htd⟩ := generateTestDescription_ok f hwf h
    obtain ⟨asr, hasr⟩ := generateTestAssertions_ok f hwf h patterns
    have hargs : ∃ aj, pyJoin ", " (f.getD "args" (PyVal.list [])) = Except.ok aj := by
      by_cases hk : f.hasKey "args" = true
      · rw [if_pos hk] at h'
        rw [getD_of_hasKey f "args" hk (PyVal.list []) PyVal.pyNone]
        cases hv : f.getD "args" PyVal.pyNone with
        | list xs =>
          rw [hv] at h'
          exact ⟨_, pyJoin_all_str ", " xs h'.2⟩
        | str s => rw [hv] at h'; simp at h'
        | bool b => rw [hv] at h'; simp at h'
        | dict kvs => rw [hv] at h'; simp at h'
        | pyNone => rw [hv] at h'; simp at h'
      · rw [getD_of_not_hasKey f "args" (by rwa [Bool.not_eq_true] at hk) (PyVal.list [])]
        exact ⟨"", pyJoin_all_str ", " [] rfl⟩
    obtain ⟨aj, haj⟩ := hargs
    refine ⟨(["  describe(\x27" ++ pyStr (f.getD "name" PyVal.pyNone) ++ "\x27, () => \x7b",
              "    it(\x27" ++ td ++ "\x27, () => \x7b",
              "      const deployer = accounts.get(\x27deployer\x27)!;",
              "      const receipt = chain.mineBlock([",
              "        Tx.contractCall(",
              "          \x27" ++ cn ++ "\x27,",
              "          \x27" ++ pyStr (f.getD "name" PyVal.pyNone) ++ "\x27,",
              "          [" ++ aj ++ "],",
              "          deployer.address",
              "        )",
              "      ]).receipts[0];",
              ""] ++ asr ++ ["    \x7d);", "  \x7d);", ""]).map PyVal.str, ?_, ?_⟩
    · unfold funcTestBlock
      rw [if_pos hwf, htd, hasr, haj]
      rfl
    · rw [List.all_eq_true]
      intro x hx
      rw [List.mem_map] at hx
      obtain ⟨a, -, ha⟩ := hx
      rw [← ha]
      rfl
  · refine ⟨[], ?_, rfl⟩
    unfold funcTestBlock
    rw [if_neg hwf]
    rfl

lemma scenarioExample_ok (patterns : Patterns) (s : PyVal)
    (hdesc : isStrVal (s.getD "description" PyVal.pyNone) = true) :
    ∃ eo, scenarioExample patterns s = Except.ok eo := by
  unfold scenarioExample
  cases hpe : patterns.examples with
  | nil => exact ⟨Option.none, rfl⟩
  | cons p ps =>
    obtain ⟨dl, hdl⟩ := isStr_pyLower _ hdesc
    refine ⟨(p :: ps).find?
      (fun pattern => (splitWhitespace dl).any
        (fun key => strContains (pyLowerStr pattern) key)), ?_⟩
    rw [bind_ok_eq _ _ hdl]
    rfl

lemma scenarioMid_ok (cn : String) (s : PyVal) (eo : Option String)
    (hfn : optFieldStr s "function" = true) (htc : optFieldStr s "test_code" = true) :
    ∃ mid, scenarioMid cn s eo = Except.ok mid ∧ mid.all isStrVal = true := by
  have htc' : isStrVal (s.getD "test_code" (PyVal.str "      // Add test implementation")) = true :=
    optFieldStr_getD s "test_code" htc "      // Add test implementation"
  cases eo with
  | none =>
    refine ⟨[s.getD "test_code" (PyVal.str "      // Add test implementation")], rfl, ?_⟩
    simp [htc']
  | some p =>
    by_cases hp : p ≠ ""
    · have hfn' : isStrVal (s.getD "function" (PyVal.str "test-function")) = true :=
        optFieldStr_getD s "function" hfn "test-function"
      obtain ⟨fs, hfs⟩ := isStr_pyAsStr _ hfn'
      refine ⟨[PyVal.str ("      "
          ++ pyReplaceStr (pyReplaceStr p "contract-name" cn) "function-name" fs)], ?_, rfl⟩
      simp only [scenarioMid]
      rw [if_pos hp, bind_ok_eq _ _ hfs]
      rfl
    · refine ⟨[s.getD "test_code" (PyVal.str "      // Add test implementation")], ?_, ?_⟩
      · simp only [scenarioMid]
        rw [if_neg hp]
        rfl
      · simp [htc']

lemma scenarioBlock_ok (cn : String) (patterns : Patterns) (s : PyVal)
    (h : testScenarioOk s = true) :
    ∃ ls, scenarioBlock cn patterns s = Except.ok ls ∧ ls.all isStrVal = true := by
  by_cases hwf : (s.isDict && s.hasKey "description") = true
  · have h' := h
    unfold testScenarioOk at h'
    rw [if_pos hwf] at h'
    simp only [Bool.and_eq_true] at h'
    obtain ⟨eo, heo⟩ := scenarioExample_ok patterns s h'.1.1
    obtain ⟨mid, hmid, hmids⟩ := scenarioMid_ok cn s eo h'.1.2 h'.2
    refine ⟨[PyVal.str ("  describe(\x27Scenario: "
          ++ pyStr (s.getD "description" PyVal.pyNone) ++ "\x27, () => \x7b"),
        PyVal.str "    it(\x27should handle the scenario correctly\x27, () => \x7b"]
        ++ mid ++ [PyVal.str "    \x7d);", PyVal.str "  \x7d);", PyVal.str ""], ?_, ?_⟩
    · unfold scenarioBlock
      rw [if_pos hwf, bind_ok_eq _ _ heo, bind_ok_eq _ _ hmid]
      rfl
    · simp [List.all_append, isStrVal, hmids]
  · refine ⟨[], ?_, rfl⟩
    unfold scenarioBlock
    rw [if_neg hwf]
    rfl

lemma testRun_ok (cn cd : String) (tfs : List PyVal) (tsc : Option (List PyVal))
    (pats : Patterns)
    (h1 : tfs.all testFuncOk = true) (h2 : (tsc.getD []).all testScenarioOk = true) :
    ∃ t, TestGenerator_run cn cd tfs tsc pats = Except.ok t := by
  obtain ⟨fbs, hfbs, hfbsP⟩ := mapME_ok_prop (funcTestBlock cn pats)
    (fun ls => ls.all isStrVal = true) tfs (by
      intro x hx
      exact funcTestBlock_ok cn pats x (by
        rw [List.all_eq_true] at h1
        exact h1 x hx))
  have hsc : ∃ sbs, scenarioSection cn pats tsc = Except.ok sbs
      ∧ ∀ b ∈ sbs, b.all isStrVal = true := by
    unfold scenarioSection
    by_cases ht : sectionTruthy tsc = true
    · rw [if_pos ht]
      exact mapME_ok_prop (scenarioBlock cn pats)
        (fun ls => ls.all isStrVal = true) (tsc.getD []) (by
          intro x hx
          exact scenarioBlock_ok cn pats x (by
            rw [List.all_eq_true] at h2
            exact h2 x hx))
    · rw [if_neg ht]
      exact ⟨[], rfl, by intro b hb; simp at hb⟩
  obtain ⟨sbs, hsbs, hsbsP⟩ := hsc
  have hall : ((((testHeadLines
        ((pats.imports.find?
          (fun imp => strContains imp "@stacks/blockchain-api-client")).getD
          ("import \x7b Chain, Clarinet, Tx, types \x7d from \x27@stacks/blockchain-api-client\x27;\n"
            ++ "import \x7b describe, expect, it, beforeEach \x7d from \x27vitest\x27;"))
        cn cd).map PyVal.str)
      ++ fbs.flatten ++ sbs.flatten ++ [PyVal.str "\x7d);"]).all isStrVal = true) := by
    simp only [List.all_append, Bool.and_eq_true]
    refine ⟨⟨⟨?_, ?_⟩, ?_⟩, ?_⟩
    · rw [List.all_eq_true]
      intro x hx
      rw [List.mem_map] at hx
      obtain ⟨a, -, ha⟩ := hx
      rw [← ha]
      rfl
    · rw [List.all_eq_true]
      intro x hx
      rw [List.mem_flatten] at hx
      obtain ⟨b, hb, hxb⟩ := hx
      have hb' := hfbsP b hb
      rw [List.all_eq_true] at hb'
      exact hb' x hxb
    · rw [List.all_eq_true]
      intro x hx
      rw [List.mem_flatten] at hx
      obtain ⟨b, hb, hxb⟩ := hx
      have hb' := hsbsP b hb
      rw [List.all_eq_true] at hb'
      exact hb' x hxb
    · rfl
  obtain ⟨t, ht⟩ : ∃ t, pyJoin "\n" (PyVal.list
      ((((testHeadLines
        ((pats.imports.find?
          (fun imp => strContains imp "@stacks/blockchain-api-client")).getD
          ("import \x7b Chain, Clarinet, Tx, types \x7d from \x27@stacks/blockchain-api-client\x27;\n"
            ++ "import \x7b describe, expect, it, beforeEach \x7d from \x27vitest\x27;"))
        cn cd).map PyVal.str)
      ++ fbs.flatten ++ sbs.flatten ++ [PyVal.str "\x7d);"]))) = Except.ok t :=
    ⟨_, pyJoin_all_str "\n" _ hall⟩
  refine ⟨t, ?_⟩
  unfold TestGenerator_run
  rw [hfbs, hsbs]
  exact ht

/-- Claim C2 counterexample (status: corrected).  The claim says the two
generators never raise, for any input "including ones whose entries or
nested sub-entries are missing keys".  But line 127 of the source
subscripts each entry of a `parameters` list without any guard: a function
descriptor whose `parameters` list contains an empty dictionary makes
`SmartContractGenerator._run` raise `KeyError: name` (in the embedding,
return `Except.error`), so the conjunction of the claim is false at this
concrete input. -/
theorem c2_counterexample :
    SmartContractGenerator_run "c" [] Option.none Option.none
      (some [PyVal.dict [("name", PyVal.str "f"),
                         ("parameters", PyVal.list [PyVal.dict []])]])
      Option.none
      = Except.error "KeyError: name" := rfl

/-- Claim C2 as amended (status: corrected).  Top-level malformed records
(non-dictionaries, or descriptors missing `name`) are dropped without
error, and both generators return a string, provided the nested sub-fields
that the source subscripts or calls string methods on are well-typed: for
the contract generator every `parameters`/`args` entry of a rendered
function descriptor is a dictionary with `name` and `type`
(`smartFuncOk`), and for the test generator the used fields are strings
and `args` is a list of strings (`testFuncOk`/`testScenarioOk`).  The test
generator hypothesis quantifies over every `patterns` value the
documentation scrape could have produced. -/
theorem c2_amended_no_raise (cn : String) (feats : List String)
    (dv mp ec fns : Option (List PyVal))
    (cn₂ desc₂ : String) (tfs : List PyVal) (tsc : Option (List PyVal))
    (pats : Patterns)
    (h1 : (fns.getD []).all smartFuncOk = true)
    (h2 : tfs.all testFuncOk = true)
    (h3 : (tsc.getD []).all testScenarioOk = true) :
    (∃ s, SmartContractGenerator_run cn feats dv mp fns ec = Except.ok s)
    ∧ (∃ t, TestGenerator_run cn₂ desc₂ tfs tsc pats = Except.ok t) :=
  ⟨smartRun_ok cn feats dv mp ec fns h1, testRun_ok cn₂ desc₂ tfs tsc pats h2 h3⟩

/-- Claim C2 amended witness: concrete descriptors with skipped malformed
top-level records and well-typed nested fields, under the empty pattern
buckets. -/
theorem c2_amended_no_raise_witness :
    (((some [PyVal.str "junk",
             PyVal.dict [("name", PyVal.str "transfer"),
                         ("parameters", PyVal.list [PyVal.dict
                           [("name", PyVal.str "amount"),
                            ("type", PyVal.str "uint")]])]]
        : Option (List PyVal)).getD []).all smartFuncOk = true)
    ∧ ([PyVal.bool true,
        PyVal.dict [("name", PyVal.str "transfer"),
                    ("description", PyVal.str "moves tokens"),
                    ("args", PyVal.list [PyVal.str "types.uint(1)"])]].all testFuncOk = true)
    ∧ (((some [PyVal.dict [("description", PyVal.str "empty transfer")]]
        : Option (List PyVal)).getD []).all testScenarioOk = true)
    ∧ ((∃ s, SmartContractGenerator_run "vault" ["transfers"]
          (some [PyVal.str "bad"]) Option.none
          (some [PyVal.str "junk",
                 PyVal.dict [("name", PyVal.str "transfer"),
                             ("parameters", PyVal.list [PyVal.dict
                               [("name", PyVal.str "amount"),
                                ("type", PyVal.str "uint")]])]])
          Option.none = Except.ok s)
       ∧ (∃ t, TestGenerator_run "vault" "a vault"
            [PyVal.bool true,
             PyVal.dict [("name", PyVal.str "transfer"),
                         ("description", PyVal.str "moves tokens"),
                         ("args", PyVal.list [PyVal.str "types.uint(1)"])]]
            (some [PyVal.dict [("description", PyVal.str "empty transfer")]])
            emptyPatterns = Except.ok t)) :=
  ⟨by decide, by decide, by decide,
   c2_amended_no_raise "vault" ["transfers"]
     (some [PyVal.str "bad"]) Option.none Option.none
     (some [PyVal.str "junk",
            PyVal.dict [("name", PyVal.str "transfer"),
                        ("parameters", PyVal.list [PyVal.dict
                          [("name", PyVal.str "amount"),
                           ("type", PyVal.str "uint")]])]])
     "vault" "a vault"
     [PyVal.bool true,
      PyVal.dict [("name", PyVal.str "transfer"),
                  ("description", PyVal.str "moves tokens"),
                  ("args", PyVal.list [PyVal.str "types.uint(1)"])]]
     (some [PyVal.dict [("description", PyVal.str "empty transfer")]])
     emptyPatterns (by decide) (by decide) (by decide)⟩

/-! ## Line analysis for the contract generator output -/

lemma cleanList_mem {xs : List PyVal} (h : cleanList xs = true) {x : PyVal}
    (hx : x ∈ xs) : x.clean = true := by
  induction xs with
  | nil => simp at hx
  | cons a as ih =>
    unfold cleanList at h
    simp only [Bool.and_eq_true] at h
    rcases List.mem_cons.mp hx with hx | hx
    · rw [hx]; exact h.1
    · exact ih h.2 hx

lemma pyListOf_clean {v : PyVal} (h : v.clean = true) :
    ∀ p ∈ pyListOf v, p.clean = true := by
  intro p hp
  cases v with
  | list xs => exact cleanList_mem (by simpa [PyVal.clean] using h) hp
  | str s => simp [pyListOf] at hp
  | bool b => simp [pyListOf] at hp
  | dict kvs => simp [pyListOf] at hp
  | pyNone => simp [pyListOf] at hp

lemma pyNone_clean : PyVal.pyNone.clean = true := rfl

lemma str_clean (s : String) (h : noNL s = true) : (PyVal.str s).clean = true := h

lemma paramStrPure_noNL (p : PyVal) (h : p.clean = true) :
    noNL (paramStrPure p) = true := by
  unfold paramStrPure
  simp only [noNL_append, pyStr_noNL _ (clean_getD h pyNone_clean "name"),
    pyStr_noNL _ (clean_getD h pyNone_clean "type"), Bool.and_true, Bool.true_and]
  decide

lemma argsStrOf_noNL (f : PyVal) (h : f.clean = true) : noNL (argsStrOf f) = true := by
  unfold argsStrOf
  have harg : ∀ k : String, noNL (String.intercalate " "
      ((pyListOf (f.getD k PyVal.pyNone)).map paramStrPure)) = true := by
    intro k
    refine noNL_intercalate " " (by decide) _ ?_
    rw [List.all_eq_true]
    intro x hx
    rw [List.mem_map] at hx
    obtain ⟨p, hp, hpx⟩ := hx
    rw [← hpx]
    exact paramStrPure_noNL p (pyListOf_clean (clean_getD h pyNone_clean k) p hp)
  by_cases h1 : f.hasKey "parameters" = true
  · rw [if_pos h1]; exact harg "parameters"
  · rw [if_neg h1]
    by_cases h2 : f.hasKey "args" = true
    · rw [if_pos h2]; exact harg "args"
    · rw [if_neg h2]; decide

lemma funcTypeOf_noNL (f : PyVal) : noNL (funcTypeOf f) = true := by
  unfold funcTypeOf
  split <;> decide

lemma funcHeaderOf_noNL (f : PyVal) (h : f.clean = true) :
    noNL (funcHeaderOf f) = true := by
  unfold funcHeaderOf
  simp only [noNL_append, funcTypeOf_noNL f,
    pyStr_noNL _ (clean_getD h pyNone_clean "name"), argsStrOf_noNL f h,
    Bool.and_true, Bool.true_and]
  decide

lemma funcBodyOf_noNL (f : PyVal) (h : f.clean = true) :
    noNL (funcBodyOf f) = true := by
  unfold funcBodyOf
  exact pyStr_noNL _ (clean_getD h (str_clean "(ok true)" (by decide)) "body")

lemma funcBlockLines_noNL (f : PyVal) (h : f.clean = true) :
    (funcBlockLines f).all noNL = true := by
  unfold funcBlockLines
  simp only [List.all_cons, List.all_nil, Bool.and_eq_true]
  refine ⟨funcHeaderOf_noNL f h, ?_, by decide, by decide, trivial⟩
  rw [noNL_append, funcBodyOf_noNL f h]
  decide

lemma funcHeaderOf_pred (f : PyVal) :
    strStartsWith (funcHeaderOf f) "(define-define-" = true := by
  unfold funcHeaderOf funcTypeOf
  split <;> rfl

lemma funcBlockLines_filter (f : PyVal) :
    (funcBlockLines f).filter (fun l => strStartsWith l "(define-define-")
      = [funcHeaderOf f] := by
  unfold funcBlockLines
  simp only [List.filter_cons, List.filter_nil, funcHeaderOf_pred f,
    show strStartsWith ("    " ++ funcBodyOf f) "(define-define-" = false from rfl,
    show strStartsWith ")" "(define-define-" = false by decide,
    show strStartsWith "" "(define-define-" = false by decide]
  rfl

lemma strictSmartFuncOk_unpack {f : PyVal} (h : strictSmartFuncOk f = true) :
    isWfFunc f = true ∧ f.clean = true ∧ smartFuncOk f = true := by
  unfold strictSmartFuncOk at h
  simp only [Bool.and_eq_true] at h
  exact ⟨h.1.1, h.1.2, h.2⟩

lemma blocks_mapME (fs : List PyVal) (h : fs.all strictSmartFuncOk = true) :
    mapME funcBlock fs = Except.ok (fs.map funcBlockLines) := by
  refine mapME_map funcBlock funcBlockLines fs ?_
  intro x hx
  rw [List.all_eq_true] at h
  obtain ⟨hwf, -, hok⟩ := strictSmartFuncOk_unpack (h x hx)
  exact funcBlock_ok x hwf hok

lemma blocks_noNL (fs : List PyVal) (h : fs.all strictSmartFuncOk = true) :
    ((fs.map funcBlockLines).flatten).all noNL = true := by
  rw [List.all_eq_true]
  intro x hx
  rw [List.mem_flatten] at hx
  obtain ⟨b, hb, hxb⟩ := hx
  rw [List.mem_map] at hb
  obtain ⟨f, hf, hfb⟩ := hb
  rw [List.all_eq_true] at h
  obtain ⟨-, hclean, -⟩ := strictSmartFuncOk_unpack (h f hf)
  have := funcBlockLines_noNL f hclean
  rw [List.all_eq_true] at this
  exact this x (hfb ▸ hxb)

lemma blocks_filter (fs : List PyVal) :
    ((fs.map funcBlockLines).flatten).filter
        (fun l => strStartsWith l "(define-define-")
      = fs.map funcHeaderOf := by
  induction fs with
  | nil => rfl
  | cons f fs ih =>
    simp only [List.map_cons, List.flatten_cons, List.filter_append, ih,
      funcBlockLines_filter f]
    rfl

/-- Claim C3 counterexample (status: corrected).  The claim quantifies
over lists of descriptors that are "dictionaries containing a name key".
This list satisfies that condition, yet the generator raises (line 127
subscripts the malformed parameter entry), so it emits no block at all
rather than exactly one per descriptor. -/
theorem c3_counterexample :
    ([PyVal.dict [("name", PyVal.str "g"),
                  ("parameters", PyVal.list [PyVal.dict [("type", PyVal.str "uint")]])]].all
        isWfFunc = true)
    ∧ SmartContractGenerator_run "counter" [] Option.none Option.none
        (some [PyVal.dict [("name", PyVal.str "g"),
                           ("parameters", PyVal.list [PyVal.dict [("type", PyVal.str "uint")]])]])
        Option.none
        = Except.error "KeyError: name" := ⟨by decide, rfl⟩

/-- Claim C3 as amended (status: corrected).  For every list of function
descriptors that are dictionaries containing `name` and whose
`parameters`/`args` entries, when present, are dictionaries containing
`name` and `type` (plus newline-free string fields, so that output lines
can be identified), the generator succeeds and the lines of its output
that start with `(define-define-` (the header line each rendered block
starts with, one per block) are exactly one per descriptor, in input list
order, each the header rendered from that descriptor. -/
theorem c3_amended_one_block_per_descriptor (cn : String) (feats : List String)
    (fs : List PyVal)
    (hcn : noNL cn = true)
    (hfs : fs.all strictSmartFuncOk = true) :
    ∃ s, SmartContractGenerator_run cn feats Option.none Option.none (some fs) Option.none
        = Except.ok s
      ∧ (splitNL s).filter (fun l => strStartsWith l "(define-define-")
          = fs.map funcHeaderOf := by
  rcases fs with _ | ⟨f, fs'⟩
  · refine ⟨String.intercalate "\n"
      [";; " ++ cn, ";; Generated smart contract based on Clarity documentation patterns", ""],
      rfl, ?_⟩
    rw [splitNL_intercalate_noNL _ _ (by
      simp only [List.all_cons, List.all_nil, Bool.and_eq_true]
      refine ⟨?_, by decide, by decide, trivial⟩
      rw [noNL_append, hcn]
      decide)]
    simp only [List.filter_cons, List.filter_nil,
      show strStartsWith (";; " ++ cn) "(define-define-" = false from rfl,
      show strStartsWith ";; Generated smart contract based on Clarity documentation patterns"
          "(define-define-" = false by decide,
      show strStartsWith "" "(define-define-" = false by decide]
    rfl
  · have hsec : functionsSection (some (f :: fs'))
        = Except.ok (";; Functions" :: (((f :: fs').map funcBlockLines).flatten)) := by
      unfold functionsSection
      rw [if_pos (by rfl : sectionTruthy (some (f :: fs')) = true),
          show (some (f :: fs')).getD [] = f :: fs' from rfl,
          bind_ok_eq _ _ (blocks_mapME (f :: fs') hfs)]
      rfl
    refine ⟨String.intercalate "\n"
      ((";; " ++ cn) :: ";; Generated smart contract based on Clarity documentation patterns"
        :: "" :: ";; Functions" :: ((f :: fs').map funcBlockLines).flatten), ?_, ?_⟩
    · unfold SmartContractGenerator_run
      rw [bind_ok_eq _ _ hsec]
      simp only [show dataVarsSection Option.none = ([] : List String) from rfl,
        show mapsSection Option.none = ([] : List String) from rfl,
        show errorCodesSection Option.none = ([] : List String) from rfl,
        List.append_nil, List.nil_append, List.cons_append]
      rfl
    · rw [splitNL_intercalate_noNL _ _ (by
        simp only [List.all_cons, Bool.and_eq_true]
        refine ⟨?_, by decide, by decide, by decide, ?_⟩
        · rw [noNL_append, hcn]; decide
        · exact blocks_noNL (f :: fs') hfs)]
      simp only [List.filter_cons,
        show strStartsWith (";; " ++ cn) "(define-define-" = false from rfl,
        show strStartsWith ";; Generated smart contract based on Clarity documentation patterns"
            "(define-define-" = false by decide,
        show strStartsWith "" "(define-define-" = false by decide,
        show strStartsWith ";; Functions" "(define-define-" = false by decide]
      exact blocks_filter (f :: fs')

/-- Claim C3 amended witness: two well-formed descriptors, one with a
parameter list and a read-only flag, one bare. -/
theorem c3_amended_one_block_per_descriptor_witness :
    noNL "vault" = true
    ∧ ([PyVal.dict [("name", PyVal.str "get-balance"),
                    ("is_read_only", PyVal.bool true),
                    ("parameters", PyVal.list [PyVal.dict
                      [("name", PyVal.str "who"), ("type", PyVal.str "principal")]])],
        PyVal.dict [("name", PyVal.str "deposit")]].all strictSmartFuncOk = true)
    ∧ (∃ s, SmartContractGenerator_run "vault" []
        Option.none Option.none
        (some [PyVal.dict [("name", PyVal.str "get-balance"),
                           ("is_read_only", PyVal.bool true),
                           ("parameters", PyVal.list [PyVal.dict
                             [("name", PyVal.str "who"), ("type", PyVal.str "principal")]])],
               PyVal.dict [("name", PyVal.str "deposit")]]) Option.none
        = Except.ok s
      ∧ (splitNL s).filter (fun l => strStartsWith l "(define-define-")
          = [PyVal.dict [("name", PyVal.str "get-balance"),
                         ("is_read_only", PyVal.bool true),
                         ("parameters", PyVal.list [PyVal.dict
                           [("name", PyVal.str "who"), ("type", PyVal.str "principal")]])],
             PyVal.dict [("name", PyVal.str "deposit")]].map funcHeaderOf) :=
  ⟨by decide, by decide,
   c3_amended_one_block_per_descriptor "vault" []
     [PyVal.dict [("name", PyVal.str "get-balance"),
                  ("is_read_only", PyVal.bool true),
                  ("parameters", PyVal.list [PyVal.dict
                    [("name", PyVal.str "who"), ("type", PyVal.str "principal")]])],
      PyVal.dict [("name", PyVal.str "deposit")]]
     (by decide) (by decide)⟩

/-! ## Line analysis for the remaining sections -/

lemma ne_of_ssw {p a b : String} (ha : strStartsWith a p = true)
    (hb : strStartsWith b p = false) : a ≠ b := by
  intro h
  rw [h, hb] at ha
  exact Bool.false_ne_true ha

lemma str_append_right_ne (p : String) {a b : String} (h : a ≠ b) :
    p ++ a ≠ p ++ b := by
  intro he
  apply h
  apply String.ext
  have hd := congrArg String.data he
  rw [String.data_append, String.data_append] at hd
  exact List.append_cancel_left hd

lemma dataVarLine_shape {v : PyVal} {l : String} (h : dataVarLine v = some l) :
    strStartsWith l "(" = true := by
  unfold dataVarLine at h
  by_cases hw : isWfDataVar v = true
  · rw [if_pos hw] at h
    cases h
    rfl
  · rw [if_neg hw] at h
    cases h

lemma dataVarLine_noNL {v : PyVal} {l : String} (hc : v.clean = true)
    (h : dataVarLine v = some l) : noNL l = true := by
  unfold dataVarLine at h
  by_cases hw : isWfDataVar v = true
  · rw [if_pos hw] at h
    cases h
    simp only [noNL_append, pyStr_noNL _ (clean_getD hc pyNone_clean "name"),
      pyStr_noNL _ (clean_getD hc pyNone_clean "type"),
      pyStr_noNL _ (clean_getD hc (str_clean "false" (by decide)) "initial"),
      Bool.and_true, Bool.true_and]
    decide
  · rw [if_neg hw] at h
    cases h

lemma mapLine_shape {v : PyVal} {l : String} (h : mapLine v = some l) :
    strStartsWith l "(" = true := by
  unfold mapLine at h
  by_cases hw : isWfMapDef v = true
  · rw [if_pos hw] at h
    cases h
    rfl
  · rw [if_neg hw] at h
    cases h

lemma mapLine_noNL {v : PyVal} {l : String} (hc : v.clean = true)
    (h : mapLine v = some l) : noNL l = true := by
  unfold mapLine at h
  by_cases hw : isWfMapDef v = true
  · rw [if_pos hw] at h
    cases h
    simp only [noNL_append, pyStr_noNL _ (clean_getD hc pyNone_clean "name"),
      pyStr_noNL _ (clean_getD hc
        (clean_getD hc (str_clean "principal" (by decide)) "key") "key_type"),
      pyStr_noNL _ (clean_getD hc
        (clean_getD hc (str_clean "bool" (by decide)) "value") "value_type"),
      Bool.and_true, Bool.true_and]
    decide
  · rw [if_neg hw] at h
    cases h

lemma errorLines_shape {v : PyVal} {l : String} (h : l ∈ errorLines v) :
    l = ";; " ++ pyStr (v.getD "message" PyVal.pyNone)
      ∨ strStartsWith l "(" = true := by
  unfold errorLines at h
  by_cases hw : isWfErrorCode v = true
  · rw [if_pos hw] at h
    rcases List.mem_append.mp h with h | h
    · by_cases hm : v.hasKey "message" = true
      · rw [if_pos hm] at h
        rcases List.mem_singleton.mp h with rfl
        exact Or.inl rfl
      · rw [if_neg hm] at h
        simp at h
    · rcases List.mem_singleton.mp h with rfl
      exact Or.inr rfl
  · rw [if_neg hw] at h
    simp at h

lemma errorLines_noNL {v : PyVal} {l : String} (hc : v.clean = true)
    (h : l ∈ errorLines v) : noNL l = true := by
  unfold errorLines at h
  by_cases hw : isWfErrorCode v = true
  · rw [if_pos hw] at h
    rcases List.mem_append.mp h with h | h
    · by_cases hm : v.hasKey "message" = true
      · rw [if_pos hm] at h
        rcases List.mem_singleton.mp h with rfl
        rw [noNL_append, pyStr_noNL _ (clean_getD hc pyNone_clean "message")]
        decide
      · rw [if_neg hm] at h
        simp at h
    · rcases List.mem_singleton.mp h with rfl
      simp only [noNL_append, pyStr_noNL _ (clean_getD hc pyNone_clean "name"),
        pyStr_noNL _ (clean_getD hc pyNone_clean "code"),
        Bool.and_true, Bool.true_and]
      decide
  · rw [if_neg hw] at h
    simp at h

lemma mem_dataVarsSection {x : String} {dv : Option (List PyVal)}
    (hx : x ∈ dataVarsSection dv) :
    x = ";; Data vars" ∨ x = "" ∨ strStartsWith x "(" = true := by
  unfold dataVarsSection at hx
  by_cases ht : sectionTruthy dv = true
  · rw [if_pos ht] at hx
    rcases List.mem_cons.mp hx with h | h
    · exact Or.inl h
    rcases List.mem_append.mp h with h | h
    · rw [List.mem_filterMap] at h
      obtain ⟨v, -, hv⟩ := h
      exact Or.inr (Or.inr (dataVarLine_shape hv))
    · rcases List.mem_singleton.mp h with rfl
      exact Or.inr (Or.inl rfl)
  · rw [if_neg ht] at hx
    simp at hx

lemma dataVarsSection_noNL (dv : Option (List PyVal))
    (h : (dv.getD []).all PyVal.clean = true) :
    (dataVarsSection dv).all noNL = true := by
  rw [List.all_eq_true]
  intro x hx
  unfold dataVarsSection at hx
  by_cases ht : sectionTruthy dv = true
  · rw [if_pos ht] at hx
    rcases List.mem_cons.mp hx with hh | hh
    · rw [hh]; decide
    rcases List.mem_append.mp hh with hh | hh
    · rw [List.mem_filterMap] at hh
      obtain ⟨v, hvmem, hv⟩ := hh
      rw [List.all_eq_true] at h
      exact dataVarLine_noNL (h v hvmem) hv
    · rcases List.mem_singleton.mp hh with rfl
      decide
  · rw [if_neg ht] at hx
    simp at hx

lemma mem_mapsSection {x : String} {mp : Option (List PyVal)}
    (hx : x ∈ mapsSection mp) :
    x = ";; Maps" ∨ x = "" ∨ strStartsWith x "(" = true := by
  unfold mapsSection at hx
  by_cases ht : sectionTruthy mp = true
  · rw [if_pos ht] at hx
    rcases List.mem_cons.mp hx with h | h
    · exact Or.inl h
    rcases List.mem_append.mp h with h | h
    · rw [List.mem_filterMap] at h
      obtain ⟨v, -, hv⟩ := h
      exact Or.inr (Or.inr (mapLine_shape hv))
    · rcases List.mem_singleton.mp h with rfl
      exact Or.inr (Or.inl rfl)
  · rw [if_neg ht] at hx
    simp at hx

lemma mapsSection_noNL (mp : Option (List PyVal))
    (h : (mp.getD []).all PyVal.clean = true) :
    (mapsSection mp).all noNL = true := by
  rw [List.all_eq_true]
  intro x hx
  unfold mapsSection at hx
  by_cases ht : sectionTruthy mp = true
  · rw [if_pos ht] at hx
    rcases List.mem_cons.mp hx with hh | hh
    · rw [hh]; decide
    rcases List.mem_append.mp hh with hh | hh
    · rw [List.mem_filterMap] at hh
      obtain ⟨v, hvmem, hv⟩ := hh
      rw [List.all_eq_true] at h
      exact mapLine_noNL (h v hvmem) hv
    · rcases List.mem_singleton.mp hh with rfl
      decide
  · rw [if_neg ht] at hx
    simp at hx

lemma mem_errorCodesSection {x : String} {ec : Option (List PyVal)}
    (hx : x ∈ errorCodesSection ec) :
    x = ";; Error codes" ∨ x = "" ∨ strStartsWith x "(" = true
      ∨ ∃ v ∈ ec.getD [], x = ";; " ++ pyStr (v.getD "message" PyVal.pyNone) := by
  unfold errorCodesSection at hx
  by_cases ht : sectionTruthy ec = true
  · rw [if_pos ht] at hx
    rcases List.mem_cons.mp hx with h | h
    · exact Or.inl h
    rcases List.mem_append.mp h with h | h
    · rw [List.mem_flatMap] at h
      obtain ⟨v, hvmem, hv⟩ := h
      rcases errorLines_shape hv with h' | h'
      · exact Or.inr (Or.inr (Or.inr ⟨v, hvmem, h'⟩))
      · exact Or.inr (Or.inr (Or.inl h'))
    · rcases List.mem_singleton.mp h with rfl
      exact Or.inr (Or.inl rfl)
  · rw [if_neg ht] at hx
    simp at hx

lemma errorCodesSection_noNL (ec : Option (List PyVal))
    (h : (ec.getD []).all PyVal.clean = true) :
    (errorCodesSection ec).all noNL = true := by
  rw [List.all_eq_true]
  intro x hx
  unfold errorCodesSection at hx
  by_cases ht : sectionTruthy ec = true
  · rw [if_pos ht] at hx
    rcases List.mem_cons.mp hx with hh | hh
    · rw [hh]; decide
    rcases List.mem_append.mp hh with hh | hh
    · rw [List.mem_flatMap] at hh
      obtain ⟨v, hvmem, hv⟩ := hh
      rw [List.all_eq_true] at h
      exact errorLines_noNL (h v hvmem) hv
    · rcases List.mem_singleton.mp hh with rfl
      decide
  · rw [if_neg ht] at hx
    simp at hx

lemma functionsSection_analysis (fs : Option (List PyVal))
    (h : (fs.getD []).all (fun f => f.clean && smartFuncOk f) = true) :
    ∃ fnP, functionsSection fs = Except.ok fnP
      ∧ (∀ x ∈ fnP, x = ";; Functions" ∨ x = "" ∨ x = ")"
          ∨ strStartsWith x "(" = true ∨ strStartsWith x " " = true)
      ∧ fnP.all noNL = true
      ∧ (sectionTruthy fs = false → fnP = []) := by
  unfold functionsSection
  by_cases ht : sectionTruthy fs = true
  · rw [if_pos ht]
    obtain ⟨bs, hbs, hbsP⟩ := mapME_ok_prop funcBlock
      (fun ls => (∀ x ∈ ls, x = "" ∨ x = ")"
          ∨ strStartsWith x "(" = true ∨ strStartsWith x " " = true)
        ∧ ls.all noNL = true) (fs.getD []) (by
        intro f hf
        rw [List.all_eq_true] at h
        have hf' := h f hf
        simp only [Bool.and_eq_true] at hf'
        by_cases hwf : isWfFunc f = true
        · refine ⟨funcBlockLines f, funcBlock_ok f hwf hf'.2, ?_, funcBlockLines_noNL f hf'.1⟩
          intro x hx
          unfold funcBlockLines at hx
          rcases List.mem_cons.mp hx with rfl | hx
          · exact Or.inr (Or.inr (Or.inl rfl))
          rcases List.mem_cons.mp hx with rfl | hx
          · exact Or.inr (Or.inr (Or.inr rfl))
          rcases List.mem_cons.mp hx with rfl | hx
          · exact Or.inr (Or.inl rfl)
          rcases List.mem_singleton.mp hx with rfl
          exact Or.inl rfl
        · exact ⟨[], funcBlock_skip f (by rwa [Bool.not_eq_true] at hwf),
            by intro x hx; simp at hx, rfl⟩)
    refine ⟨";; Functions" :: bs.flatten, by rw [bind_ok_eq _ _ hbs]; rfl, ?_, ?_, ?_⟩
    · intro x hx
      rcases List.mem_cons.mp hx with rfl | hx
      · exact Or.inl rfl
      rw [List.mem_flatten] at hx
      obtain ⟨b, hb, hxb⟩ := hx
      rcases (hbsP b hb).1 x hxb with h' | h' | h' | h'
      · exact Or.inr (Or.inl h')
      · exact Or.inr (Or.inr (Or.inl h'))
      · exact Or.inr (Or.inr (Or.inr (Or.inl h')))
      · exact Or.inr (Or.inr (Or.inr (Or.inr h')))
    · simp only [List.all_cons, Bool.and_eq_true]
      refine ⟨by decide, ?_⟩
      rw [List.all_eq_true]
      intro x hx
      rw [List.mem_flatten] at hx
      obtain ⟨b, hb, hxb⟩ := hx
      have := (hbsP b hb).2
      rw [List.all_eq_true] at this
      exact this x hxb
    · intro hfalse
      rw [ht] at hfalse
      cases hfalse
  · rw [if_neg ht]
    exact ⟨[], rfl, by intro x hx; simp at hx, rfl, fun _ => rfl⟩

/-- Claim C5 counterexample (status: corrected).  `data_vars` is the empty
list, yet the text `;; Data vars` appears in the output as a full line: an
error-code descriptor with `message = "Data vars"` makes line 150 emit the
comment line `;; Data vars`.  The claim says the header "does not appear
anywhere in the output", which is therefore false as stated. -/
theorem c5_counterexample :
    SmartContractGenerator_run "c" [] (some []) Option.none Option.none
      (some [PyVal.dict [("name", PyVal.str "ERR_A"), ("code", PyVal.str "1"),
                         ("message", PyVal.str "Data vars")]])
      = Except.ok ";; c\n;; Generated smart contract based on Clarity documentation patterns\n\n;; Error codes\n;; Data vars\n(define-constant ERR_A (err u1))\n"
    ∧ ";; Data vars" ∈ splitNL ";; c\n;; Generated smart contract based on Clarity documentation patterns\n\n;; Error codes\n;; Data vars\n(define-constant ERR_A (err u1))\n" :=
  ⟨rfl, by decide⟩

/-- Claim C5 as amended (status: corrected).  When a descriptor list is
empty or `None` its section header comment is not emitted, and the header
text appears nowhere in the output as a line — provided no other input
injects that text: the contract name must differ from the header names,
no error-code `message` may render to a header name, and all descriptor
fields are newline-free (otherwise an embedded newline or an equal string
reproduces the header line, as the counterexample shows). -/
theorem c5_amended_headers_absent (cn : String) (feats : List String)
    (dv mp fs ec : Option (List PyVal))
    (hcn : noNL cn = true)
    (hcn1 : cn ≠ "Data vars") (hcn2 : cn ≠ "Maps")
    (hcn3 : cn ≠ "Functions") (hcn4 : cn ≠ "Error codes")
    (hdv : (dv.getD []).all PyVal.clean = true)
    (hmp : (mp.getD []).all PyVal.clean = true)
    (hec : (ec.getD []).all PyVal.clean = true)
    (hfs : (fs.getD []).all (fun f => f.clean && smartFuncOk f) = true)
    (hmsg : ∀ e ∈ ec.getD [],
      pyStr (e.getD "message" PyVal.pyNone) ∉
        (["Data vars", "Maps", "Functions", "Error codes"] : List String)) :
    ∃ out, SmartContractGenerator_run cn feats dv mp fs ec = Except.ok out
      ∧ (sectionTruthy dv = false → ";; Data vars" ∉ splitNL out)
      ∧ (sectionTruthy mp = false → ";; Maps" ∉ splitNL out)
      ∧ (sectionTruthy fs = false → ";; Functions" ∉ splitNL out)
      ∧ (sectionTruthy ec = false → ";; Error codes" ∉ splitNL out) := by
  obtain ⟨fnP, hfnP, hfnShape, hfnNoNL, hfnEmpty⟩ := functionsSection_analysis fs hfs
  refine ⟨String.intercalate "\n"
    ((";; " ++ cn) :: ";; Generated smart contract based on Clarity documentation patterns"
      :: "" :: (dataVarsSection dv ++ (mapsSection mp ++ (fnP ++ errorCodesSection ec)))),
    ?_, ?_⟩
  · unfold SmartContractGenerator_run
    rw [bind_ok_eq _ _ hfnP]
    simp only [List.append_assoc, List.cons_append, List.nil_append]
    rfl
  · have hsplit : splitNL (String.intercalate "\n"
        ((";; " ++ cn) :: ";; Generated smart contract based on Clarity documentation patterns"
          :: "" :: (dataVarsSection dv ++ (mapsSection mp ++ (fnP ++ errorCodesSection ec)))))
        = (";; " ++ cn) :: ";; Generated smart contract based on Clarity documentation patterns"
          :: "" :: (dataVarsSection dv ++ (mapsSection mp ++ (fnP ++ errorCodesSection ec))) := by
      refine splitNL_intercalate_noNL _ _ ?_
      simp only [List.all_cons, List.all_append, Bool.and_eq_true]
      refine ⟨?_, by decide, by decide,
        dataVarsSection_noNL dv hdv, mapsSection_noNL mp hmp, hfnNoNL,
        errorCodesSection_noNL ec hec⟩
      rw [noNL_append, hcn]
      decide
    rw [hsplit]
    have hname : ∀ nm : String, cn ≠ nm → (";; " ++ cn) ≠ (";; " ++ nm) :=
      fun nm hne => str_append_right_ne ";; " hne
    have hmsgne : ∀ nm : String,
        nm ∈ (["Data vars", "Maps", "Functions", "Error codes"] : List String) →
        ∀ v ∈ ec.getD [],
          (";; " ++ pyStr (v.getD "message" PyVal.pyNone)) ≠ (";; " ++ nm) := by
      intro nm hnm v hv
      refine str_append_right_ne ";; " ?_
      intro heq
      exact hmsg v hv (heq ▸ hnm)
    refine ⟨?_, ?_, ?_, ?_⟩
    · intro hempty hmem
      have hdvnil : dataVarsSection dv = [] := by
        unfold dataVarsSection
        rw [if_neg (by rw [hempty]; exact Bool.false_ne_true)]
      rw [hdvnil] at hmem
      simp only [List.mem_cons, List.mem_append, List.nil_append,
        List.not_mem_nil, false_or] at hmem
      rcases hmem with h | h | h | h | h | h
      · exact hname "Data vars" hcn1 h.symm
      · exact absurd h (by decide)
      · exact absurd h (by decide)
      · rcases mem_mapsSection h with h' | h' | h'
        · exact absurd h' (by decide)
        · exact absurd h' (by decide)
        · exact absurd h' (by decide)
      · rcases hfnShape _ h with h' | h' | h' | h' | h'
        · exact absurd h' (by decide)
        · exact absurd h' (by decide)
        · exact absurd h' (by decide)
        · exact absurd h' (by decide)
        · exact absurd h' (by decide)
      · rcases mem_errorCodesSection h with h' | h' | h' | ⟨v, hv, h'⟩
        · exact absurd h' (by decide)
        · exact absurd h' (by decide)
        · exact absurd h' (by decide)
        · exact hmsgne "Data vars" (by decide) v hv h'.symm
    · intro hempty hmem
      have hmpnil : mapsSection mp = [] := by
        unfold mapsSection
        rw [if_neg (by rw [hempty]; exact Bool.false_ne_true)]
      rw [hmpnil] at hmem
      simp only [List.mem_cons, List.mem_append, List.nil_append,
        List.not_mem_nil, false_or] at hmem
      rcases hmem with h | h | h | h | h | h
      · exact hname "Maps" hcn2 h.symm
      · exact absurd h (by decide)
      · exact absurd h (by decide)
      · rcases mem_dataVarsSection h with h' | h' | h'
        · exact absurd h' (by decide)
        · exact absurd h' (by decide)
        · exact absurd h' (by decide)
      · rcases hfnShape _ h with h' | h' | h' | h' | h'
        · exact absurd h' (by decide)
        · exact absurd h' (by decide)
        · exact absurd h' (by decide)
        · exact absurd h' (by decide)
        · exact absurd h' (by decide)
      · rcases mem_errorCodesSection h with h' | h' | h' | ⟨v, hv, h'⟩
        · exact absurd h' (by decide)
        · exact absurd h' (by decide)
        · exact absurd h' (by decide)
        · exact hmsgne "Maps" (by decide) v hv h'.symm
    · intro hempty hmem
      rw [hfnEmpty hempty] at hmem
      simp only [List.mem_cons, List.mem_append, List.nil_append,
        List.not_mem_nil, false_or] at hmem
      rcases hmem with h | h | h | h | h | h
      · exact hname "Functions" hcn3 h.symm
      · exact absurd h (by decide)
      · exact absurd h (by decide)
      · rcases mem_dataVarsSection h with h' | h' | h'
        · exact absurd h' (by decide)
        · exact absurd h' (by decide)
        · exact absurd h' (by decide)
      · rcases mem_mapsSection h with h' | h' | h'
        · exact absurd h' (by decide)
        · exact absurd h' (by decide)
        · exact absurd h' (by decide)
      · rcases mem_errorCodesSection h with h' | h' | h' | ⟨v, hv, h'⟩
        · exact absurd h' (by decide)
        · exact absurd h' (by decide)
        · exact absurd h' (by decide)
        · exact hmsgne "Functions" (by decide) v hv h'.symm
    · intro hempty hmem
      have hecnil : errorCodesSection ec = [] := by
        unfold errorCodesSection
        rw [if_neg (by rw [hempty]; exact Bool.false_ne_true)]
      rw [hecnil] at hmem
      simp only [List.mem_cons, List.mem_append, List.nil_append, List.append_nil,
        List.not_mem_nil, false_or, or_false] at hmem
      rcases hmem with h | h | h | h | h | h
      · exact hname "Error codes" hcn4 h.symm
      · exact absurd h (by decide)
      · exact absurd h (by decide)
      · rcases mem_dataVarsSection h with h' | h' | h'
        · exact absurd h' (by decide)
        · exact absurd h' (by decide)
        · exact absurd h' (by decide)
      · rcases mem_mapsSection h with h' | h' | h'
        · exact absurd h' (by decide)
        · exact absurd h' (by decide)
        · exact absurd h' (by decide)
      · rcases hfnShape _ h with h' | h' | h' | h' | h'
        · exact absurd h' (by decide)
        · exact absurd h' (by decide)
        · exact absurd h' (by decide)
        · exact absurd h' (by decide)
        · exact absurd h' (by decide)

/-- Claim C5 amended witness: empty `data_vars`, absent `maps` and
`functions`, one clean error code whose message is not a header name. -/
theorem c5_amended_headers_absent_witness :
    noNL "vault" = true
    ∧ (([PyVal.dict [("name", PyVal.str "ERR_LIMIT"), ("code", PyVal.str "2"),
                     ("message", PyVal.str "limit hit")]] : List PyVal).all PyVal.clean = true)
    ∧ (∃ out, SmartContractGenerator_run "vault" [] (some []) Option.none Option.none
          (some [PyVal.dict [("name", PyVal.str "ERR_LIMIT"), ("code", PyVal.str "2"),
                             ("message", PyVal.str "limit hit")]]) = Except.ok out
        ∧ (sectionTruthy (some ([] : List PyVal)) = false → ";; Data vars" ∉ splitNL out)
        ∧ (sectionTruthy (Option.none : Option (List PyVal)) = false → ";; Maps" ∉ splitNL out)
        ∧ (sectionTruthy (Option.none : Option (List PyVal)) = false → ";; Functions" ∉ splitNL out)
        ∧ (sectionTruthy (some [PyVal.dict [("name", PyVal.str "ERR_LIMIT"),
              ("code", PyVal.str "2"), ("message", PyVal.str "limit hit")]]) = false →
            ";; Error codes" ∉ splitNL out)) :=
  ⟨by decide, by decide,
   c5_amended_headers_absent "vault" [] (some []) Option.none Option.none
     (some [PyVal.dict [("name", PyVal.str "ERR_LIMIT"), ("code", PyVal.str "2"),
                        ("message", PyVal.str "limit hit")]])
     (by decide) (by decide) (by decide) (by decide) (by decide)
     (by decide) (by decide) (by decide) (by decide)
     (by
       intro e he
       rcases List.mem_singleton.mp he with rfl
       decide)⟩

/-! ## Newline preservation of the lower/replace primitives -/

lemma char_toLower_ne_nl (c : Char) (h : c ≠ '\n') : Char.toLower c ≠ '\n' := by
  simp only [Char.toLower]
  split
  · intro he
    rename_i hc
    have hv : (c.toNat + 32).isValidChar := Or.inl (by
      have : c.toNat + 32 ≤ 122 := by omega
      omega)
    have ht : (Char.ofNat (c.toNat + 32)).toNat = c.toNat + 32 := by
      rw [Char.ofNat, dif_pos hv]
      rfl
    rw [he] at ht
    have hnl : ('\n').toNat = 10 := rfl
    omega
  · exact h

lemma pyLowerStr_noNL (s : String) (h : noNL s = true) :
    noNL (pyLowerStr s) = true := by
  unfold pyLowerStr noNL
  rw [show (String.mk (s.data.map Char.toLower)).data = s.data.map Char.toLower from rfl,
      List.all_map]
  rw [List.all_eq_true]
  intro c hc
  unfold noNL at h
  rw [List.all_eq_true] at h
  have := h c hc
  simp only [Function.comp, bne_iff_ne, ne_eq] at this ⊢
  exact char_toLower_ne_nl c this

lemma replaceList_noNL (pat rep : List Char)
    (hrep : rep.all (fun c => c != '\n') = true) :
    ∀ (n : Nat) (l : List Char), l.length ≤ n → l.all (fun c => c != '\n') = true →
      (replaceList pat rep l).all (fun c => c != '\n') = true := by
  intro n
  induction n with
  | zero =>
    intro l hlen _
    rw [Nat.le_zero, List.length_eq_zero] at hlen
    rw [hlen, replaceList.eq_def]
    rfl
  | succ n ih =>
    intro l hlen hall
    cases l with
    | nil => rw [replaceList.eq_def]; rfl
    | cons c cs =>
      simp only [List.all_cons, Bool.and_eq_true] at hall
      have h1 : cs.length ≤ n := by
        simp only [List.length_cons] at hlen
        omega
      rw [replaceList.eq_def]
      split
      · rfl
      · rename_i c2 cs2 heq
        injection heq with he1 he2
        subst he1
        subst he2
        split
        · split
          · simp only [List.all_cons, Bool.and_eq_true]
            exact ⟨hall.1, hall.2⟩
          · rename_i hp p ps hpat
            rw [List.all_append, hrep]
            simp only [Bool.true_and]
            refine ih (cs.drop ps.length) ?_ ?_
            · rw [List.length_drop]
              omega
            · rw [List.all_eq_true]
              intro x hx
              have hall2 := hall.2
              rw [List.all_eq_true] at hall2
              exact hall2 x (List.mem_of_mem_drop hx)
        · simp only [List.all_cons, Bool.and_eq_true]
          exact ⟨hall.1, ih cs h1 hall.2⟩

lemma pyReplaceStr_noNL (s pat rep : String) (hs : noNL s = true)
    (hrep : noNL rep = true) : noNL (pyReplaceStr s pat rep) = true := by
  unfold pyReplaceStr noNL
  unfold noNL at hs hrep
  exact replaceList_noNL pat.data rep.data hrep s.data.length s.data (Nat.le_refl _) hs

/-! ## Field unpacking for the strict test-generator conditions -/

lemma strictTestFuncOk_unpack {f : PyVal} (h : strictTestFuncOk f = true) :
    isWfFunc f = true
    ∧ (∃ n, (∀ d, f.getD "name" d = PyVal.str n) ∧ noNL n = true)
    ∧ (∃ d, f.getD "description" (PyVal.str "") = PyVal.str d ∧ noNL d = true)
    ∧ (∃ e, f.getD "expected_behavior" (PyVal.str "") = PyVal.str e ∧ noNL e = true)
    ∧ (∃ xs, f.getD "args" (PyVal.list []) = PyVal.list xs
        ∧ xs.all isStrVal = true ∧ (xs.map pyStr).all noNL = true) := by
  cases f with
  | str s => simp [strictTestFuncOk] at h
  | bool b => simp [strictTestFuncOk] at h
  | list xs => simp [strictTestFuncOk] at h
  | pyNone => simp [strictTestFuncOk] at h
  | dict kvs =>
    unfold strictTestFuncOk at h
    simp only [Bool.and_eq_true] at h
    obtain ⟨⟨⟨hn, hd⟩, he⟩, ha⟩ := h
    have hname : ∃ n, kvs.lookup "name" = some (PyVal.str n) ∧ noNL n = true := by
      cases hln : kvs.lookup "name" with
      | none => rw [hln] at hn; simp at hn
      | some v =>
        cases v with
        | str n => exact ⟨n, rfl, by rw [hln] at hn; exact hn⟩
        | bool b => rw [hln] at hn; simp at hn
        | list l => rw [hln] at hn; simp at hn
        | dict d => rw [hln] at hn; simp at hn
        | pyNone => rw [hln] at hn; simp at hn
    obtain ⟨n, hln, hnn⟩ := hname
    refine ⟨?_, ⟨n, ?_, hnn⟩, ?_, ?_, ?_⟩
    · show (PyVal.isDict (PyVal.dict kvs) && PyVal.hasKey (PyVal.dict kvs) "name") = true
      simp [PyVal.isDict, PyVal.hasKey, hln]
    · intro d
      show (kvs.lookup "name").getD d = PyVal.str n
      rw [hln]
      rfl
    · cases hld : kvs.lookup "description" with
      | none =>
        refine ⟨"", ?_, by decide⟩
        show (kvs.lookup "description").getD (PyVal.str "") = PyVal.str ""
        rw [hld]
        rfl
      | some v =>
        cases v with
        | str d =>
          refine ⟨d, ?_, by rw [hld] at hd; exact hd⟩
          show (kvs.lookup "description").getD (PyVal.str "") = PyVal.str d
          rw [hld]
          rfl
        | bool b => rw [hld] at hd; simp at hd
        | list l => rw [hld] at hd; simp at hd
        | dict dd => rw [hld] at hd; simp at hd
        | pyNone => rw [hld] at hd; simp at hd
    · cases hle : kvs.lookup "expected_behavior" with
      | none =>
        refine ⟨"", ?_, by decide⟩
        show (kvs.lookup "expected_behavior").getD (PyVal.str "") = PyVal.str ""
        rw [hle]
        rfl
      | some v =>
        cases v with
        | str e =>
          refine ⟨e, ?_, by rw [hle] at he; exact he⟩
          show (kvs.lookup "expected_behavior").getD (PyVal.str "") = PyVal.str e
          rw [hle]
          rfl
        | bool b => rw [hle] at he; simp at he
        | list l => rw [hle] at he; simp at he
        | dict dd => rw [hle] at he; simp at he
        | pyNone => rw [hle] at he; simp at he
    · cases hla : kvs.lookup "args" with
      | none =>
        refine ⟨[], ?_, rfl, rfl⟩
        show (kvs.lookup "args").getD (PyVal.list []) = PyVal.list []
        rw [hla]
        rfl
      | some v =>
        cases v with
        | list xs =>
          rw [hla] at ha
          refine ⟨xs, ?_, ?_, ?_⟩
          · show (kvs.lookup "args").getD (PyVal.list []) = PyVal.list xs
            rw [hla]
            rfl
          · rw [List.all_eq_true] at ha ⊢
            intro a haa
            have hv := ha a haa
            cases a with
            | str s => rfl
            | bool b => simp at hv
            | list l => simp at hv
            | dict dd => simp at hv
            | pyNone => simp at hv
          · rw [List.all_eq_true] at ha
            rw [List.all_eq_true]
            intro a haa
            rw [List.mem_map] at haa
            obtain ⟨x, hx, hxa⟩ := haa
            have hv := ha x hx
            cases x with
            | str z => rw [← hxa]; exact hv
            | bool b => simp at hv
            | list l => simp at hv
            | dict dd => simp at hv
            | pyNone => simp at hv
        | str s => rw [hla] at ha; simp at ha
        | bool b => rw [hla] at ha; simp at ha
        | dict dd => rw [hla] at ha; simp at ha
        | pyNone => rw [hla] at ha; simp at ha

lemma strictScenarioOk_unpack {s : PyVal} (h : strictScenarioOk s = true) :
    (s.isDict && s.hasKey "description") = true
    ∧ (∃ d, (∀ dd, s.getD "description" dd = PyVal.str d) ∧ noNL d = true)
    ∧ (∃ t, s.getD "test_code" (PyVal.str "      // Add test implementation")
          = PyVal.str t
        ∧ noNL t = true ∧ strStartsWith t "  describe(" = false) := by
  cases s with
  | str z => simp [strictScenarioOk] at h
  | bool b => simp [strictScenarioOk] at h
  | list xs => simp [strictScenarioOk] at h
  | pyNone => simp [strictScenarioOk] at h
  | dict kvs =>
    unfold strictScenarioOk at h
    simp only [Bool.and_eq_true] at h
    obtain ⟨hd, ht⟩ := h
    have hdesc : ∃ d, kvs.lookup "description" = some (PyVal.str d) ∧ noNL d = true := by
      cases hld : kvs.lookup "description" with
      | none => rw [hld] at hd; simp at hd
      | some v =>
        cases v with
        | str d => exact ⟨d, rfl, by rw [hld] at hd; exact hd⟩
        | bool b => rw [hld] at hd; simp at hd
        | list l => rw [hld] at hd; simp at hd
        | dict dd => rw [hld] at hd; simp at hd
        | pyNone => rw [hld] at hd; simp at hd
    obtain ⟨d, hld, hdn⟩ := hdesc
    refine ⟨?_, ⟨d, ?_, hdn⟩, ?_⟩
    · show (PyVal.isDict (PyVal.dict kvs) && PyVal.hasKey (PyVal.dict kvs) "description") = true
      simp [PyVal.isDict, PyVal.hasKey, hld]
    · intro dd
      show (kvs.lookup "description").getD dd = PyVal.str d
      rw [hld]
      rfl
    · cases hlt : kvs.lookup "test_code" with
      | none =>
        refine ⟨"      // Add test implementation", ?_, by decide, by decide⟩
        show (kvs.lookup "test_code").getD _ = _
        rw [hlt]
        rfl
      | some v =>
        cases v with
        | str t =>
          rw [hlt] at ht
          simp only [Bool.and_eq_true, Bool.not_eq_true'] at ht
          refine ⟨t, ?_, ht.1, ht.2⟩
          show (kvs.lookup "test_code").getD _ = _
          rw [hlt]
          rfl
        | bool b => rw [hlt] at ht; simp at ht
        | list l => rw [hlt] at ht; simp at ht
        | dict dd => rw [hlt] at ht; simp at ht
        | pyNone => rw [hlt] at ht; simp at ht

lemma map_pyStr_str : ∀ (xs : List String), (xs.map PyVal.str).map pyStr = xs := by
  intro xs
  induction xs with
  | nil => rfl
  | cons a as ih => simp only [List.map_cons, ih]; rfl

lemma scenarioPyLinesOf_map (s : PyVal) :
    (scenarioPyLinesOf s).map pyStr = scenarioStrLinesOf s := rfl

/-! ## Values computed by the test generator under empty pattern buckets -/

lemma generateTestDescription_val (f : PyVal) (h : strictTestFuncOk f = true) :
    generateTestDescription f = Except.ok (testDescOf f) := by
  obtain ⟨-, ⟨n, hn, -⟩, ⟨d, hd, -⟩, ⟨e, he, -⟩, -⟩ := strictTestFuncOk_unpack h
  have hrhs : testDescOf f =
      (if pyTruthy (PyVal.str d) = true then "should " ++ pyLowerStr d
       else if pyTruthy (PyVal.str e) = true then "should " ++ pyLowerStr e
       else "should execute " ++ pyReplaceStr n "-" " " ++ " successfully") := by
    unfold testDescOf
    rw [hd, he, hn (PyVal.str "")]
    rfl
  have hlhs : generateTestDescription f =
      (if pyTruthy (PyVal.str d) = true then Except.ok ("should " ++ pyLowerStr d)
       else if pyTruthy (PyVal.str e) = true then Except.ok ("should " ++ pyLowerStr e)
       else Except.ok ("should execute " ++ pyReplaceStr n "-" " " ++ " successfully")) := by
    unfold generateTestDescription
    rw [hd, he, hn (PyVal.str "")]
    rfl
  rw [hlhs, hrhs]
  by_cases h1 : pyTruthy (PyVal.str d) = true
  · rw [if_pos h1, if_pos h1]
  · rw [if_neg h1, if_neg h1]
    by_cases h2 : pyTruthy (PyVal.str e) = true
    · rw [if_pos h2, if_pos h2]
    · rw [if_neg h2, if_neg h2]

lemma generateTestAssertions_val (f : PyVal) (h : strictTestFuncOk f = true) :
    generateTestAssertions f emptyPatterns = Except.ok (testAssertionsOf f) := by
  obtain ⟨-, -, -, ⟨e, he, -⟩, -⟩ := strictTestFuncOk_unpack h
  unfold generateTestAssertions testAssertionsOf
  simp only [he]
  rw [bind_ok_eq _ _ (show filterME (relevantAssertion (f.getD "name" (PyVal.str "")))
        emptyPatterns.assertions = Except.ok [] from rfl)]
  by_cases h1 : pyTruthy (PyVal.str e) = true
  · rw [if_pos h1, if_pos h1]
    rfl
  · rw [if_neg h1, if_neg h1]
    rfl

lemma argsJoinedOf_val (f : PyVal) (h : strictTestFuncOk f = true) :
    pyJoin ", " (f.getD "args" (PyVal.list [])) = Except.ok (argsJoinedOf f) := by
  obtain ⟨-, -, -, -, ⟨xs, hxs, hstr, -⟩⟩ := strictTestFuncOk_unpack h
  have hrhs : argsJoinedOf f = String.intercalate ", " (xs.map pyStr) := by
    unfold argsJoinedOf
    rw [hxs]
    rfl
  rw [hxs, hrhs]
  exact pyJoin_all_str ", " xs hstr

lemma funcTestBlock_val (cn : String) (f : PyVal) (h : strictTestFuncOk f = true) :
    funcTestBlock cn emptyPatterns f
      = Except.ok ((funcTestLinesOf cn f).map PyVal.str) := by
  obtain ⟨hwf, -, -, -, -⟩ := strictTestFuncOk_unpack h
  unfold funcTestBlock
  rw [if_pos hwf, generateTestDescription_val f h, generateTestAssertions_val f h,
    argsJoinedOf_val f h]
  rfl

lemma scenarioBlock_val (cn : String) (s : PyVal) (h : strictScenarioOk s = true) :
    scenarioBlock cn emptyPatterns s = Except.ok (scenarioPyLinesOf s) := by
  obtain ⟨hwf, -, -⟩ := strictScenarioOk_unpack h
  unfold scenarioBlock
  rw [if_pos hwf]
  rfl

lemma scenarioSection_val (cn : String) (tsc : Option (List PyVal))
    (h : (tsc.getD []).all strictScenarioOk = true) :
    scenarioSection cn emptyPatterns tsc
      = Except.ok ((tsc.getD []).map scenarioPyLinesOf) := by
  unfold scenarioSection
  by_cases ht : sectionTruthy tsc = true
  · rw [if_pos ht]
    refine mapME_map _ _ _ ?_
    intro x hx
    rw [List.all_eq_true] at h
    exact scenarioBlock_val cn x (h x hx)
  · rw [if_neg ht]
    cases tsc with
    | none => rfl
    | some l =>
      cases l with
      | nil => rfl
      | cons a as => exact absurd (by rfl : sectionTruthy (some (a :: as)) = true) ht

/-! ## Newline freedom and describe-line analysis of the emitted test lines -/

lemma testDescOf_noNL (f : PyVal) (h : strictTestFuncOk f = true) :
    noNL (testDescOf f) = true := by
  obtain ⟨-, ⟨n, hn, hnn⟩, ⟨d, hd, hdn⟩, ⟨e, he, hen⟩, -⟩ := strictTestFuncOk_unpack h
  unfold testDescOf
  rw [hd, he, hn (PyVal.str ""),
    show pyStr (PyVal.str d) = d from rfl,
    show pyStr (PyVal.str e) = e from rfl,
    show pyStr (PyVal.str n) = n from rfl]
  by_cases h1 : pyTruthy (PyVal.str d) = true
  · rw [if_pos h1, noNL_append, pyLowerStr_noNL d hdn]
    decide
  · rw [if_neg h1]
    by_cases h2 : pyTruthy (PyVal.str e) = true
    · rw [if_pos h2, noNL_append, pyLowerStr_noNL e hen]
      decide
    · rw [if_neg h2]
      simp only [noNL_append, pyReplaceStr_noNL n "-" " " hnn (by decide),
        Bool.and_true, Bool.true_and]
      decide

lemma testAssertionsOf_noNL (f : PyVal) (h : strictTestFuncOk f = true) :
    (testAssertionsOf f).all noNL = true := by
  unfold testAssertionsOf
  split_ifs <;> decide

lemma describeLineOf_noNL (f : PyVal) (h : strictTestFuncOk f = true) :
    noNL (describeLineOf f) = true := by
  obtain ⟨-, ⟨n, hn, hnn⟩, -, -, -⟩ := strictTestFuncOk_unpack h
  unfold describeLineOf
  rw [hn PyVal.pyNone, show pyStr (PyVal.str n) = n from rfl]
  simp only [noNL_append, hnn, Bool.and_true, Bool.true_and]
  decide

lemma argsJoinedOf_noNL (f : PyVal) (h : strictTestFuncOk f = true) :
    noNL (argsJoinedOf f) = true := by
  obtain ⟨-, -, -, -, ⟨xs, hxs, -, hxn⟩⟩ := strictTestFuncOk_unpack h
  unfold argsJoinedOf
  rw [hxs, show pyListOf (PyVal.list xs) = xs from rfl]
  exact noNL_intercalate ", " (by decide) (xs.map pyStr) hxn

lemma funcTestLinesOf_noNL (cn : String) (f : PyVal) (hcn : noNL cn = true)
    (h : strictTestFuncOk f = true) : (funcTestLinesOf cn f).all noNL = true := by
  obtain ⟨-, ⟨n, hn, hnn⟩, -, -, -⟩ := strictTestFuncOk_unpack h
  rw [List.all_eq_true]
  intro l hl
  unfold funcTestLinesOf at hl
  rcases List.mem_append.mp hl with h1 | h1
  · rcases List.mem_append.mp h1 with h2 | h2
    · simp only [List.mem_cons, List.not_mem_nil, or_false] at h2
      rcases h2 with rfl|rfl|rfl|rfl|rfl|rfl|rfl|rfl|rfl|rfl|rfl|rfl
      · exact describeLineOf_noNL f h
      · simp only [noNL_append, testDescOf_noNL f h, Bool.and_true, Bool.true_and]
        decide
      · decide
      · decide
      · decide
      · simp only [noNL_append, hcn, Bool.and_true, Bool.true_and]
        decide
      · rw [hn PyVal.pyNone, show pyStr (PyVal.str n) = n from rfl]
        simp only [noNL_append, hnn, Bool.and_true, Bool.true_and]
        decide
      · simp only [noNL_append, argsJoinedOf_noNL f h, Bool.and_true, Bool.true_and]
        decide
      · decide
      · decide
      · decide
      · decide
    · have hta := testAssertionsOf_noNL f h
      rw [List.all_eq_true] at hta
      exact hta l h2
  · simp only [List.mem_cons, List.not_mem_nil, or_false] at h1
    rcases h1 with rfl|rfl|rfl
    · decide
    · decide
    · decide

lemma scenarioDescribeLineOf_noNL (s : PyVal) (h : strictScenarioOk s = true) :
    noNL (scenarioDescribeLineOf s) = true := by
  obtain ⟨-, ⟨d, hd, hdn⟩, -⟩ := strictScenarioOk_unpack h
  unfold scenarioDescribeLineOf
  rw [hd PyVal.pyNone, show pyStr (PyVal.str d) = d from rfl]
  simp only [noNL_append, hdn, Bool.and_true, Bool.true_and]
  decide

lemma scenarioStrLinesOf_noNL (s : PyVal) (h : strictScenarioOk s = true) :
    (scenarioStrLinesOf s).all noNL = true := by
  obtain ⟨-, -, ⟨t, htc, htn, -⟩⟩ := strictScenarioOk_unpack h
  unfold scenarioStrLinesOf
  simp only [List.all_cons, List.all_nil, Bool.and_eq_true]
  refine ⟨scenarioDescribeLineOf_noNL s h, by decide, ?_, by decide, by decide,
    by decide, trivial⟩
  rw [htc]
  exact htn

lemma testAssertionsOf_filter (f : PyVal) :
    (testAssertionsOf f).filter (fun l => strStartsWith l "  describe(") = [] := by
  unfold testAssertionsOf
  split_ifs <;> decide

lemma funcTestLinesOf_filter (cn : String) (f : PyVal) :
    (funcTestLinesOf cn f).filter (fun l => strStartsWith l "  describe(")
      = [describeLineOf f] := by
  unfold funcTestLinesOf describeLineOf
  simp only [List.filter_append, List.filter_cons, List.filter_nil,
    testAssertionsOf_filter f,
    show ∀ x y : String,
      strStartsWith ("  describe(\x27" ++ x ++ y) "  describe(" = true from
      fun x y => rfl,
    show ∀ x y : String,
      strStartsWith ("    it(\x27" ++ x ++ y) "  describe(" = false from
      fun x y => rfl,
    show ∀ x y : String,
      strStartsWith ("          \x27" ++ x ++ y) "  describe(" = false from
      fun x y => rfl,
    show ∀ x y : String,
      strStartsWith ("          [" ++ x ++ y) "  describe(" = false from
      fun x y => rfl,
    show strStartsWith "      const deployer = accounts.get(\x27deployer\x27)!;"
      "  describe(" = false by decide,
    show strStartsWith "      const receipt = chain.mineBlock([" "  describe(" = false
      by decide,
    show strStartsWith "        Tx.contractCall(" "  describe(" = false by decide,
    show strStartsWith "          deployer.address" "  describe(" = false by decide,
    show strStartsWith "        )" "  describe(" = false by decide,
    show strStartsWith "      ]).receipts[0];" "  describe(" = false by decide,
    show strStartsWith "" "  describe(" = false by decide,
    show strStartsWith "    \x7d);" "  describe(" = false by decide,
    show strStartsWith "  \x7d);" "  describe(" = false by decide]
  rfl

lemma scenarioStrLinesOf_filter (s : PyVal) (h : strictScenarioOk s = true) :
    (scenarioStrLinesOf s).filter (fun l => strStartsWith l "  describe(")
      = [scenarioDescribeLineOf s] := by
  obtain ⟨-, -, ⟨t, htc, -, htf⟩⟩ := strictScenarioOk_unpack h
  unfold scenarioStrLinesOf scenarioDescribeLineOf
  rw [htc]
  simp only [List.filter_cons, List.filter_nil,
    show ∀ x y : String,
      strStartsWith ("  describe(\x27Scenario: " ++ x ++ y) "  describe(" = true from
      fun x y => rfl,
    show strStartsWith "    it(\x27should handle the scenario correctly\x27, () => \x7b"
      "  describe(" = false by decide,
    show pyStr (PyVal.str t) = t from rfl, htf,
    show strStartsWith "    \x7d);" "  describe(" = false by decide,
    show strStartsWith "  \x7d);" "  describe(" = false by decide,
    show strStartsWith "" "  describe(" = false by decide]
  rfl

/-! ## Assembling the whole test-generator output -/

lemma testHeadLines_cons (l cn cd : String) :
    testHeadLines l cn cd = l :: testHeadTail cn cd := rfl

lemma testHeadTail_noNL (cn cd : String) (hcn : noNL cn = true) (hcd : noNL cd = true) :
    (testHeadTail cn cd).all noNL = true := by
  unfold testHeadTail
  simp only [List.all_cons, List.all_nil, Bool.and_eq_true]
  refine ⟨by decide, ?_, ?_, by decide, by decide, by decide, by decide, by decide,
    by decide, by decide, by decide, by decide, by decide, trivial⟩
  · simp only [noNL_append, hcn, Bool.and_true, Bool.true_and]
    decide
  · rw [noNL_append, hcd]
    decide

lemma testHeadTail_filter (cn cd : String) :
    (testHeadTail cn cd).filter (fun l => strStartsWith l "  describe(") = [] := by
  unfold testHeadTail
  simp only [List.filter_cons, List.filter_nil,
    show ∀ x y : String,
      strStartsWith ("describe(\x27" ++ x ++ y) "  describe(" = false from
      fun x y => rfl,
    show ∀ x : String, strStartsWith ("  // " ++ x) "  describe(" = false from
      fun x => rfl,
    show strStartsWith "" "  describe(" = false by decide,
    show strStartsWith "  let chain: Chain;" "  describe(" = false by decide,
    show strStartsWith "  let accounts: Map<string, Account>;" "  describe(" = false
      by decide,
    show strStartsWith "  beforeEach(() => \x7b" "  describe(" = false by decide,
    show strStartsWith "    chain = new Chain();" "  describe(" = false by decide,
    show strStartsWith "    accounts = new Map();" "  describe(" = false by decide,
    show strStartsWith
      "    accounts.set(\x27deployer\x27, new Account(\x27ST1PQHQKV0RJXZFY1DGX8MNSNYVE3VGZJSRTPGZGM\x27));"
      "  describe(" = false by decide,
    show strStartsWith
      "    accounts.set(\x27wallet_1\x27, new Account(\x27ST1SJ3DTE5DN7X54YDH5D64R3BCB6A2AG2ZQ8YPD5\x27));"
      "  describe(" = false by decide,
    show strStartsWith "  \x7d);" "  describe(" = false by decide]
  rfl

lemma flatMap_funcLines_filter (cn : String) (fs : List PyVal) :
    (fs.flatMap (funcTestLinesOf cn)).filter (fun l => strStartsWith l "  describe(")
      = fs.map describeLineOf := by
  induction fs with
  | nil => rfl
  | cons f fs ih =>
    simp only [List.flatMap_cons, List.map_cons, List.filter_append, ih,
      funcTestLinesOf_filter cn f, List.singleton_append]

lemma flatMap_scenLines_filter (ss : List PyVal) (h : ss.all strictScenarioOk = true) :
    (ss.flatMap scenarioStrLinesOf).filter (fun l => strStartsWith l "  describe(")
      = ss.map scenarioDescribeLineOf := by
  induction ss with
  | nil => rfl
  | cons s ss ih =>
    simp only [List.all_cons, Bool.and_eq_true] at h
    simp only [List.flatMap_cons, List.map_cons, List.filter_append, ih h.2,
      scenarioStrLinesOf_filter s h.1, List.singleton_append]

lemma testRun_val (cn cd : String) (fs : List PyVal) (tsc : Option (List PyVal))
    (hfs : fs.all strictTestFuncOk = true)
    (hsc : (tsc.getD []).all strictScenarioOk = true) :
    TestGenerator_run cn cd fs tsc emptyPatterns
      = Except.ok (String.intercalate "\n"
          (testHeadLines defaultImport cn cd
            ++ fs.flatMap (funcTestLinesOf cn)
            ++ (tsc.getD []).flatMap scenarioStrLinesOf
            ++ ["\x7d);"])) := by
  have hfb : mapME (funcTestBlock cn emptyPatterns) fs
      = Except.ok (fs.map (fun f => (funcTestLinesOf cn f).map PyVal.str)) := by
    refine mapME_map _ _ _ ?_
    intro x hx
    rw [List.all_eq_true] at hfs
    exact funcTestBlock_val cn x (hfs x hx)
  have hsb := scenarioSection_val cn tsc hsc
  have hallstr : ((((testHeadLines defaultImport cn cd).map PyVal.str)
        ++ (fs.map (fun f => (funcTestLinesOf cn f).map PyVal.str)).flatten
        ++ ((tsc.getD []).map scenarioPyLinesOf).flatten
        ++ [PyVal.str "\x7d);"]).all isStrVal) = true := by
    rw [List.all_eq_true]
    intro x hx
    rcases List.mem_append.mp hx with hx | hx
    · rcases List.mem_append.mp hx with hx | hx
      · rcases List.mem_append.mp hx with hx | hx
        · obtain ⟨a, -, ha⟩ := List.mem_map.mp hx
          rw [← ha]
          rfl
        · obtain ⟨b, hb, hxb⟩ := List.mem_flatten.mp hx
          obtain ⟨g, -, hgb⟩ := List.mem_map.mp hb
          rw [← hgb] at hxb
          obtain ⟨a, -, ha⟩ := List.mem_map.mp hxb
          rw [← ha]
          rfl
      · obtain ⟨b, hb, hxb⟩ := List.mem_flatten.mp hx
        obtain ⟨s2, hs2, hsb2⟩ := List.mem_map.mp hb
        rw [← hsb2] at hxb
        rw [List.all_eq_true] at hsc
        obtain ⟨-, -, ⟨t, htc, -, -⟩⟩ := strictScenarioOk_unpack (hsc s2 hs2)
        unfold scenarioPyLinesOf at hxb
        simp only [List.mem_cons, List.not_mem_nil, or_false] at hxb
        rcases hxb with rfl|rfl|rfl|rfl|rfl|rfl
        · rfl
        · rfl
        · rw [htc]; rfl
        · rfl
        · rfl
        · rfl
    · simp only [List.mem_singleton] at hx
      rw [hx]
      rfl
  show ((mapME (funcTestBlock cn emptyPatterns) fs) >>= fun funcBlocks =>
      (scenarioSection cn emptyPatterns tsc) >>= fun scenBlocks =>
      pyJoin "\n" (PyVal.list
        (((testHeadLines defaultImport cn cd).map PyVal.str)
          ++ funcBlocks.flatten ++ scenBlocks.flatten ++ [PyVal.str "\x7d);"])))
    = _
  rw [bind_ok_eq _ _ hfb, bind_ok_eq _ _ hsb, pyJoin_all_str "\n" _ hallstr]
  have h2 : ∀ (l : List PyVal),
      (((l.map (fun f => (funcTestLinesOf cn f).map PyVal.str)).flatten).map pyStr)
        = l.flatMap (funcTestLinesOf cn) := by
    intro l
    induction l with
    | nil => rfl
    | cons a as ih =>
      simp only [List.map_cons, List.flatten_cons, List.map_append, map_pyStr_str,
        List.flatMap_cons, ih]
  have h3 : ∀ (l : List PyVal),
      (((l.map scenarioPyLinesOf).flatten).map pyStr) = l.flatMap scenarioStrLinesOf := by
    intro l
    induction l with
    | nil => rfl
    | cons a as ih =>
      simp only [List.map_cons, List.flatten_cons, List.map_append,
        scenarioPyLinesOf_map, List.flatMap_cons, ih]
  simp only [List.map_append, map_pyStr_str, h2, h3]
  rfl

/-- **C9** (status: confirmed).  With the scraped pattern buckets held
fixed at the all-fetches-fail state (`emptyPatterns`), `TestGenerator._run`
is deterministic: two calls with equal contract name, description, function
list and scenario list produce identical output strings.  Moreover, for
inputs whose used descriptor fields are newline-free strings, the output
contains exactly one `  describe(` block-opening line per function
descriptor followed by one per scenario descriptor, in input list order. -/
theorem c9_fixed_patterns_deterministic_ordered (cn cd : String)
    (fs : List PyVal) (tsc : Option (List PyVal))
    (hcn : noNL cn = true) (hcd : noNL cd = true)
    (hfs : fs.all strictTestFuncOk = true)
    (hsc : (tsc.getD []).all strictScenarioOk = true) :
    (∀ cn2 cd2 fs2 tsc2, cn2 = cn → cd2 = cd → fs2 = fs → tsc2 = tsc →
        TestGenerator_run cn2 cd2 fs2 tsc2 emptyPatterns
          = TestGenerator_run cn cd fs tsc emptyPatterns)
    ∧ ∃ out, TestGenerator_run cn cd fs tsc emptyPatterns = Except.ok out
        ∧ (splitNL out).filter (fun l => strStartsWith l "  describe(")
            = fs.map describeLineOf ++ (tsc.getD []).map scenarioDescribeLineOf := by
  constructor
  · intro cn2 cd2 fs2 tsc2 e1 e2 e3 e4
    rw [e1, e2, e3, e4]
  · refine ⟨_, testRun_val cn cd fs tsc hfs hsc, ?_⟩
    have hnl : ((testHeadTail cn cd ++ fs.flatMap (funcTestLinesOf cn)
          ++ (tsc.getD []).flatMap scenarioStrLinesOf ++ ["\x7d);"]).all noNL) = true := by
      rw [List.all_eq_true]
      intro x hx
      rcases List.mem_append.mp hx with hx | hx
      · rcases List.mem_append.mp hx with hx | hx
        · rcases List.mem_append.mp hx with hx | hx
          · exact List.all_eq_true.mp (testHeadTail_noNL cn cd hcn hcd) x hx
          · obtain ⟨g, hg, hxg⟩ := List.mem_flatMap.mp hx
            rw [List.all_eq_true] at hfs
            exact List.all_eq_true.mp (funcTestLinesOf_noNL cn g hcn (hfs g hg)) x hxg
        · obtain ⟨s2, hs2, hxs2⟩ := List.mem_flatMap.mp hx
          rw [List.all_eq_true] at hsc
          exact List.all_eq_true.mp (scenarioStrLinesOf_noNL s2 (hsc s2 hs2)) x hxs2
      · simp only [List.mem_singleton] at hx
        rw [hx]
        decide
    rw [testHeadLines_cons, List.cons_append, List.cons_append, List.cons_append,
      splitNL_intercalate,
      show splitNL defaultImport
        = ["import \x7b Chain, Clarinet, Tx, types \x7d from \x27@stacks/blockchain-api-client\x27;",
           "import \x7b describe, expect, it, beforeEach \x7d from \x27vitest\x27;"] from rfl,
      flatMap_splitNL_noNL _ hnl]
    simp only [List.filter_append, List.filter_cons, List.filter_nil,
      show strStartsWith
        "import \x7b Chain, Clarinet, Tx, types \x7d from \x27@stacks/blockchain-api-client\x27;"
        "  describe(" = false by decide,
      show strStartsWith
        "import \x7b describe, expect, it, beforeEach \x7d from \x27vitest\x27;"
        "  describe(" = false by decide,
      testHeadTail_filter cn cd, flatMap_funcLines_filter cn fs,
      flatMap_scenLines_filter (tsc.getD []) hsc,
      show strStartsWith "\x7d);" "  describe(" = false by decide,
      List.nil_append, List.append_nil]
    simp

/-- Witness for C9: the hypotheses hold and the theorem applies at the
concrete input `("counter", "a counter")` with one function descriptor and
one scenario descriptor. -/
theorem c9_fixed_patterns_deterministic_ordered_witness :
    noNL "counter" = true ∧ noNL "a counter" = true
    ∧ ([PyVal.dict [("name", PyVal.str "increment")]].all strictTestFuncOk) = true
    ∧ (((some [PyVal.dict [("description", PyVal.str "overflow"),
          ("test_code", PyVal.str "      // custom check")]]
        : Option (List PyVal)).getD []).all strictScenarioOk) = true
    ∧ ((∀ cn2 cd2 fs2 tsc2, cn2 = "counter" → cd2 = "a counter"
          → fs2 = [PyVal.dict [("name", PyVal.str "increment")]]
          → tsc2 = some [PyVal.dict [("description", PyVal.str "overflow"),
              ("test_code", PyVal.str "      // custom check")]]
          → TestGenerator_run cn2 cd2 fs2 tsc2 emptyPatterns
            = TestGenerator_run "counter" "a counter"
                [PyVal.dict [("name", PyVal.str "increment")]]
                (some [PyVal.dict [("description", PyVal.str "overflow"),
                  ("test_code", PyVal.str "      // custom check")]]) emptyPatterns)
        ∧ ∃ out, TestGenerator_run "counter" "a counter"
              [PyVal.dict [("name", PyVal.str "increment")]]
              (some [PyVal.dict [("description", PyVal.str "overflow"),
                ("test_code", PyVal.str "      // custom check")]]) emptyPatterns
            = Except.ok out
          ∧ (splitNL out).filter (fun l => strStartsWith l "  describe(")
              = [PyVal.dict [("name", PyVal.str "increment")]].map describeLineOf
                ++ ((some [PyVal.dict [("description", PyVal.str "overflow"),
                    ("test_code", PyVal.str "      // custom check")]]
                  : Option (List PyVal)).getD []).map scenarioDescribeLineOf) :=
  ⟨by decide, by decide, by decide, by decide,
   c9_fixed_patterns_deterministic_ordered "counter" "a counter"
     [PyVal.dict [("name", PyVal.str "increment")]]
     (some [PyVal.dict [("description", PyVal.str "overflow"),
       ("test_code", PyVal.str "      // custom check")]])
     (by decide) (by decide) (by decide) (by decide)⟩
